import Mathlib

/-!
Shallow embedding of the Standings & Playoff-Qualification Probability Engine
of `src/services/standings.js` (class `StandingsAnalyzer`).

Modelling conventions:
* JavaScript numbers that hold fantasy point totals are modelled as `ℚ`
  (the source only adds, multiplies and compares them).
* Week counts are `Nat`; `weeksRemaining` is `Int` because the source
  subtraction can go negative.
* The `records` object (a dictionary keyed by `roster_id`) is modelled as a
  `List TeamRecord` in roster order; dictionary writes `records[id].f += v`
  become a first-match functional update.  The source throws if a matchup
  references an id that is not a key of the dictionary, so theorems about
  the aggregator carry a well-formedness hypothesis restricting them to the
  inputs on which the source is defined.
* Remote calls (`api.getMatchups`) are modelled as a pure function
  `Nat → Option (List Matchup)`; `none` models a rejected promise, which the
  source converts to `[]` via `.catch(() => [])`.
* `Math.random()` draws are modelled as an explicit stream `rng : Nat → ℚ`
  together with a cursor that advances once per draw, in source order.
-/

namespace FantasyStandings

/-- Matchup entry: one team's line of a weekly head-to-head pairing
(`matchup_id`, `roster_id`, `points`).  `points` is `Option ℚ`; the source
reads it as `m.points || 0`. -/
structure Matchup where
  matchup_id : Nat
  roster_id : Nat
  points : Option ℚ
deriving DecidableEq

/-- Roster entry as consumed by `calculateRecords` (`roster_id`, `owner_id`). -/
structure Roster where
  roster_id : Nat
  owner_id : String
deriving DecidableEq

/-- TeamRecord: the per-team value stored in the `records` dictionary built by
`calculateRecords`. -/
structure TeamRecord where
  rosterId : Nat
  ownerId : String
  wins : Nat
  losses : Nat
  ties : Nat
  pointsFor : ℚ
  pointsAgainst : ℚ
deriving DecidableEq

/-- Update of the first record whose `rosterId` matches `rid`; models the
in-place mutation `records[rid].field op= v` on the dictionary entry. -/
def updateRecord (rs : List TeamRecord) (rid : Nat) (f : TeamRecord → TeamRecord) :
    List TeamRecord :=
  match rs with
  | [] => []
  | r :: rest =>
      if r.rosterId = rid then f r :: rest
      else r :: updateRecord rest rid f

/-- Field update `r.pointsFor += p`. -/
def addPF (p : ℚ) (r : TeamRecord) : TeamRecord :=
  { r with pointsFor := r.pointsFor + p }

/-- Field update `r.pointsAgainst += p`. -/
def addPA (p : ℚ) (r : TeamRecord) : TeamRecord :=
  { r with pointsAgainst := r.pointsAgainst + p }

/-- Field update `r.wins++`. -/
def incWins (r : TeamRecord) : TeamRecord :=
  { r with wins := r.wins + 1 }

/-- Field update `r.losses++`. -/
def incLosses (r : TeamRecord) : TeamRecord :=
  { r with losses := r.losses + 1 }

/-- Field update `r.ties++`. -/
def incTies (r : TeamRecord) : TeamRecord :=
  { r with ties := r.ties + 1 }

/-- Grouping of a week's matchup entries by `matchup_id` (the source builds the
object `matchupGroups` and iterates `Object.values`; group order does not
influence any record value because all contributions are additive). -/
def groupByMatchupId (ms : List Matchup) : List (List Matchup) :=
  ((ms.map (·.matchup_id)).eraseDups).map
    (fun i => ms.filter (fun m => m.matchup_id == i))

/-- Processing of one valid two-entry matchup group by `calculateRecords`
(lines 62-80): points are accumulated symmetrically, then a win/loss or a tie
is recorded by score comparison. -/
def processMatchupPair (records : List TeamRecord) (team1 team2 : Matchup) :
    List TeamRecord :=
  let points1 := team1.points.getD 0
  let points2 := team2.points.getD 0
  let records := updateRecord records team1.roster_id (addPF points1)
  let records := updateRecord records team1.roster_id (addPA points2)
  let records := updateRecord records team2.roster_id (addPF points2)
  let records := updateRecord records team2.roster_id (addPA points1)
  if points1 > points2 then
    updateRecord (updateRecord records team1.roster_id incWins)
      team2.roster_id incLosses
  else if points2 > points1 then
    updateRecord (updateRecord records team2.roster_id incWins)
      team1.roster_id incLosses
  else
    updateRecord (updateRecord records team1.roster_id incTies)
      team2.roster_id incTies

/-- Fold of one week's matchups into the records (the body of the
`allMatchups.forEach` loop of `calculateRecords`): groups of size exactly two
are processed, any other size is skipped. -/
def applyWeek (records : List TeamRecord) (weekMatchups : List Matchup) :
    List TeamRecord :=
  (groupByMatchupId weekMatchups).foldl
    (fun recs grp =>
      match grp with
      | [t1, t2] => processMatchupPair recs t1 t2
      | _ => recs)
    records

/-- Zeroed records, one per roster, as initialised by `calculateRecords`
(lines 34-44). -/
def initRecords (rosters : List Roster) : List TeamRecord :=
  rosters.map (fun r =>
    { rosterId := r.roster_id
      ownerId := r.owner_id
      wins := 0
      losses := 0
      ties := 0
      pointsFor := 0
      pointsAgainst := 0 })

/-- Embedding of `calculateRecords(rosters, allMatchups)`. -/
def calculateRecords (rosters : List Roster) (allMatchups : List (List Matchup)) :
    List TeamRecord :=
  allMatchups.foldl applyWeek (initRecords rosters)

/-- Well-formed input for the aggregator: every matchup entry references a
roster id that is a key of the records dictionary.  The source dereferences
`records[m.roster_id]` for entries of two-sized groups and would throw on a
missing key, so aggregator theorems are stated on this domain. -/
def matchupsWellFormed (rosters : List Roster) (allMatchups : List (List Matchup)) : Prop :=
  ∀ w ∈ allMatchups, ∀ m ∈ w, m.roster_id ∈ rosters.map (·.roster_id)

instance (rosters : List Roster) (allMatchups : List (List Matchup)) :
    Decidable (matchupsWellFormed rosters allMatchups) := by
  unfold matchupsWellFormed; infer_instance

/-- Comparator of the simulator's final-standings sort and of the
`sortedRecords` sort inside `calculatePlayoffProbability` (both sort with
`(a, b) => b.wins - a.wins || b.pointsFor - a.pointsFor`): `a` may come before
`b` iff the comparator is ≤ 0 on `(a, b)`.  Ties are NOT consulted. -/
def simOrder (a b : TeamRecord) : Prop :=
  b.wins < a.wins ∨ (a.wins = b.wins ∧ b.pointsFor ≤ a.pointsFor)

instance : DecidableRel simOrder := fun a b => by
  unfold simOrder; infer_instance

/-- Comparator of the `standings` sort in `analyzeStandings` (lines 379-383):
descending wins, then descending ties, then descending pointsFor. -/
def standingsOrder (a b : TeamRecord) : Prop :=
  b.wins < a.wins ∨
    (a.wins = b.wins ∧
      (b.ties < a.ties ∨ (a.ties = b.ties ∧ b.pointsFor ≤ a.pointsFor)))

instance : DecidableRel standingsOrder := fun a b => by
  unfold standingsOrder; infer_instance

/-- Sort used on each trial's final records inside `simulateRemainingSeason`
(lines 225-228).  JavaScript `Array.prototype.sort` is a stable sort, so it is
modelled by the stable `List.insertionSort`. -/
def sortRecords (rs : List TeamRecord) : List TeamRecord :=
  rs.insertionSort simOrder

/-- Embedding of `calculateAdjustedPPG(record, currentWeek)`; the week
argument is accepted and ignored, as in the source. -/
def calculateAdjustedPPG (record : TeamRecord) (_currentWeek : Nat) : ℚ :=
  let gamesPlayed := record.wins + record.losses + record.ties
  if gamesPlayed = 0 then 0
  else record.pointsFor / gamesPlayed

/-- Simulation of one future matchup pair inside a trial (lines 188-220).
The two `Math.random()` draws are consumed from the stream `rng` at cursor
`k` (one for `points1`, one for `points2`) only when both records are found;
a pair with a missing record is skipped without consuming draws. -/
def simulatePair (simRecords : List TeamRecord) (week : Nat) (rng : Nat → ℚ)
    (k : Nat) (team1 team2 : Matchup) : List TeamRecord × Nat :=
  match simRecords.find? (fun r => r.rosterId == team1.roster_id),
        simRecords.find? (fun r => r.rosterId == team2.roster_id) with
  | some record1, some record2 =>
      let ppg1 := calculateAdjustedPPG record1 week
      let ppg2 := calculateAdjustedPPG record2 week
      let points1 := ppg1 * (4/5 + rng k * (2/5))
      let points2 := ppg2 * (4/5 + rng (k+1) * (2/5))
      let simRecords :=
        if points1 > points2 then
          updateRecord (updateRecord simRecords team1.roster_id incWins)
            team2.roster_id incLosses
        else if points2 > points1 then
          updateRecord (updateRecord simRecords team2.roster_id incWins)
            team1.roster_id incLosses
        else
          updateRecord (updateRecord simRecords team1.roster_id incTies)
            team2.roster_id incTies
      let simRecords := updateRecord simRecords team1.roster_id (addPF points1)
      let simRecords := updateRecord simRecords team2.roster_id (addPF points2)
      (simRecords, k + 2)
  | _, _ => (simRecords, k)

/-- Simulation of one future week inside a trial: group by `matchup_id`,
simulate each group of size exactly two. -/
def simulateWeek (simRecords : List TeamRecord) (weekMatchups : List Matchup)
    (week : Nat) (rng : Nat → ℚ) (k : Nat) : List TeamRecord × Nat :=
  (groupByMatchupId weekMatchups).foldl
    (fun (st : List TeamRecord × Nat) grp =>
      match grp with
      | [t1, t2] => simulatePair st.1 week rng st.2 t1 t2
      | _ => st)
    (simRecords, k)

/-- Simulation of all remaining weeks inside one trial (the
`for (weekIdx …)` loop, lines 174-222); `week` tracks
`currentWeek + weekIdx`. -/
def simulateWeeks (simRecords : List TeamRecord)
    (futureMatchups : List (List Matchup)) (week : Nat) (rng : Nat → ℚ)
    (k : Nat) : List TeamRecord × Nat :=
  match futureMatchups with
  | [] => (simRecords, k)
  | w :: rest =>
      let st := simulateWeek simRecords w week rng k
      simulateWeeks st.1 rest (week + 1) rng st.2

/-- One Monte Carlo trial (the body of the `for (sim …)` loop): copy the
records, simulate the remaining weeks, sort with `sortRecords`, locate the
target team's 1-based rank (`indexOf` of an absent team yields rank 0) and
report whether the trial qualifies, i.e. whether the rank is ≤ 6 (the source
literal `if (userFinalRank <= 6)`, commented "Assuming 6 playoff teams"). -/
def runTrial (userRecord : TeamRecord) (allRecords : List TeamRecord)
    (futureMatchups : List (List Matchup)) (currentWeek : Nat)
    (rng : Nat → ℚ) (k : Nat) : Bool × Nat :=
  let st := simulateWeeks allRecords futureMatchups currentWeek rng k
  let finalStandings := sortRecords st.1
  let userFinalRank : Nat :=
    ((finalStandings.findIdx? (fun r => r.rosterId == userRecord.rosterId)).map
      (· + 1)).getD 0
  (decide (userFinalRank ≤ 6), st.2)

/-- Trial loop of `simulateRemainingSeason`, accumulating the
`playoffAppearances` counter and the random cursor. -/
def simLoop (userRecord : TeamRecord) (allRecords : List TeamRecord)
    (futureMatchups : List (List Matchup)) (currentWeek : Nat)
    (rng : Nat → ℚ) : Nat → Nat → Nat → Nat × Nat
  | 0, acc, k => (acc, k)
  | n + 1, acc, k =>
      let t := runTrial userRecord allRecords futureMatchups currentWeek rng k
      simLoop userRecord allRecords futureMatchups currentWeek rng n
        (if t.1 then acc + 1 else acc) t.2

/-- Embedding of `simulateRemainingSeason(userRecord, allRecords, rosters,
futureMatchups, currentWeek, iterations)`.  `rosters` is accepted and unused,
as in the source.  Returns `(playoffAppearances / iterations) * 100`. -/
def simulateRemainingSeason (userRecord : TeamRecord)
    (allRecords : List TeamRecord) (_rosters : List Roster)
    (futureMatchups : List (List Matchup)) (currentWeek : Nat)
    (iterations : Nat) (rng : Nat → ℚ) : ℚ :=
  let res := simLoop userRecord allRecords futureMatchups currentWeek rng
    iterations 0 0
  ((res.1 : ℚ) / (iterations : ℚ)) * 100

/-- League settings as read by `calculatePlayoffProbability`
(`league.settings?.playoff_teams`, `league.settings?.playoff_week_start`). -/
structure LeagueSettings where
  playoff_teams : Option Nat
  playoff_week_start : Option Nat
deriving DecidableEq

/-- League object; `settings` is optional (the source uses `?.`). -/
structure League where
  settings : Option LeagueSettings
deriving DecidableEq

/-- JavaScript `o || d` on an optional number: `none` and the falsy value `0`
both fall back to the default. -/
def orFalsyNat (o : Option Nat) (d : Nat) : Nat :=
  match o with
  | some v => if v = 0 then d else v
  | none => d

/-- JavaScript `o || d` on an optional string: `none` and the falsy empty
string both fall back to the default. -/
def orFalsyStr (o : Option String) (d : String) : String :=
  match o with
  | some s => if s = "" then d else s
  | none => d

/-- Result object of `calculatePlayoffProbability`. -/
structure ProbResult where
  probability : Int
  currentRank : Nat
  playoffTeams : Nat
  weeksRemaining : Int
  status : String
deriving DecidableEq

/-- Embedding of `getRemainingSchedule(leagueId, currentWeek,
regularSeasonWeeks)`: one provider call per week from `currentWeek` through
`regularSeasonWeeks`, a failed call (`none`) degrading to `[]`. -/
def getRemainingSchedule (api : Nat → Option (List Matchup)) (currentWeek : Nat)
    (regularSeasonWeeks : Int) : List (List Matchup) :=
  (List.range' currentWeek (regularSeasonWeeks - (currentWeek : Int) + 1).toNat).map
    (fun w => (api w).getD [])

/-- Number of regular season weeks computed by `calculatePlayoffProbability`:
`(league.settings?.playoff_week_start || 15) - 1`. -/
def regularSeasonWeeksOf (league : League) : Int :=
  (orFalsyNat (league.settings.bind (·.playoff_week_start)) 15 : Int) - 1

/-- Weeks remaining computed by `calculatePlayoffProbability`:
`regularSeasonWeeks - currentWeek + 1` (an `Int`: it goes negative once the
current week passes the regular season). -/
def weeksRemainingOf (league : League) (currentWeek : Nat) : Int :=
  regularSeasonWeeksOf league - currentWeek + 1

/-- Embedding of `calculatePlayoffProbability(record, allRecords, league,
currentWeek, rosters, leagueId)`.  The Season Data Provider is passed as the
pure function `api` and the ambient `Math.random` stream as `rng`. -/
def calculatePlayoffProbability (record : TeamRecord)
    (allRecords : List TeamRecord) (league : League) (currentWeek : Nat)
    (rosters : List Roster) (api : Nat → Option (List Matchup))
    (rng : Nat → ℚ) : ProbResult :=
  let totalTeams := allRecords.length
  let playoffTeams := orFalsyNat (league.settings.bind (·.playoff_teams))
    (totalTeams / 2)
  let regularSeasonWeeks := regularSeasonWeeksOf league
  let weeksRemaining := weeksRemainingOf league currentWeek
  let sortedRecords := allRecords.insertionSort simOrder
  let currentRank : Nat :=
    ((sortedRecords.findIdx? (fun r => r.rosterId == record.rosterId)).map
      (· + 1)).getD 0
  let gamesPlayed := record.wins + record.losses + record.ties
  let winPct : ℚ :=
    if 0 < gamesPlayed then
      ((record.wins : ℚ) + (record.ties : ℚ) * (1/2)) / (gamesPlayed : ℚ)
    else 0
  if weeksRemaining = 0 then
    { probability := if currentRank ≤ playoffTeams then 100 else 0
      currentRank := currentRank
      playoffTeams := playoffTeams
      weeksRemaining := weeksRemaining
      status := if currentRank ≤ playoffTeams then "IN" else "OUT" }
  else
    let futureMatchups := getRemainingSchedule api currentWeek regularSeasonWeeks
    let probability : ℚ :=
      if 0 < futureMatchups.length ∧ futureMatchups.any (fun m => 0 < m.length)
      then
        simulateRemainingSeason record allRecords rosters futureMatchups
          currentWeek 500 rng
      else
        let avgPPG := calculateAdjustedPPG record currentWeek
        let leagueAvgPPG : ℚ :=
          (allRecords.foldl
            (fun sum r =>
              let games : Nat := r.wins + r.losses + r.ties
              sum + (if 0 < games then r.pointsFor / (games : ℚ) else 0))
            0) / (allRecords.length : ℚ)
        let base : ℚ :=
          if currentRank ≤ playoffTeams then
            let cushion : ℚ := (playoffTeams : ℚ) - (currentRank : ℚ)
            70 + min (cushion * 5) 20
          else
            let deficit : ℚ := (currentRank : ℚ) - (playoffTeams : ℚ)
            max 5 (45 - deficit * 8)
        let p1 := base + (avgPPG - leagueAvgPPG) * 2
        let p2 :=
          if 8 ≤ weeksRemaining then p1 + 10
          else if weeksRemaining ≤ 3 then p1 - 15
          else p1
        let p3 :=
          if (3/5 : ℚ) ≤ winPct then p2 + 15
          else if winPct ≤ (3/10 : ℚ) then p2 - 20
          else p2
        max 1 (min 99 p3)
    { probability := round probability
      currentRank := currentRank
      playoffTeams := playoffTeams
      weeksRemaining := weeksRemaining
      status := if currentRank ≤ playoffTeams then "IN" else "OUT" }

/-- League user as read by `analyzeStandings`; `team_name` models
`user.metadata?.team_name`. -/
structure User where
  user_id : String
  display_name : Option String
  team_name : Option String
deriving DecidableEq

/-- TeamRecord decorated with the user info added in `analyzeStandings`. -/
structure NamedRecord extends TeamRecord where
  teamName : String
  username : String
deriving DecidableEq

/-- Standings comparator lifted to decorated records (same fields). -/
def standingsOrderN (a b : NamedRecord) : Prop :=
  standingsOrder a.toTeamRecord b.toTeamRecord

instance : DecidableRel standingsOrderN := fun a b => by
  unfold standingsOrderN; infer_instance

/-- Power-ranking comparator of `calculatePowerRankings`
(`(a, b) => b.pointsFor - a.pointsFor`): descending `pointsFor` only. -/
def powerOrderN (a b : NamedRecord) : Prop :=
  b.pointsFor ≤ a.pointsFor

instance : DecidableRel powerOrderN := fun a b => by
  unfold powerOrderN; infer_instance

/-- NamedRecord decorated with its power rank. -/
structure PowerRanked extends NamedRecord where
  powerRank : Nat
deriving DecidableEq

/-- Embedding of `calculatePowerRankings(records)`: sort by points scored
descending and attach 1-based positions. -/
def calculatePowerRankings (records : List NamedRecord) : List PowerRanked :=
  (records.insertionSort powerOrderN).enum.map
    (fun p => { toNamedRecord := p.2, powerRank := p.1 + 1 })

/-- Season Data Provider plus the roster service's current week, as consumed
by `analyzeStandings`.  `matchups` models `api.getMatchups(leagueId, week)`
with `none` for a rejected promise. -/
structure Api where
  league : League
  rosters : List Roster
  users : List User
  matchups : Nat → Option (List Matchup)
  currentWeek : Nat

/-- Embedding of `getSeasonMatchups(leagueId, currentWeek)`: weeks `1` through
`currentWeek - 1`, each failed week degrading to `[]`. -/
def getSeasonMatchups (api : Nat → Option (List Matchup)) (currentWeek : Nat) :
    List (List Matchup) :=
  (List.range' 1 (currentWeek - 1)).map (fun w => (api w).getD [])

/-- Target team's record enriched with name, standing and power rank, as
returned by `analyzeStandings`. -/
structure AnalyzedUserRecord extends TeamRecord where
  teamName : Option String
  standing : Nat
  powerRank : Nat

/-- Result object of `analyzeStandings`. -/
structure Analysis where
  userRecord : AnalyzedUserRecord
  standings : List NamedRecord
  powerRankings : List PowerRanked
  playoffProb : ProbResult
  leagueSize : Nat
  currentWeek : Nat

/-- Embedding of `analyzeStandings(userId, leagueId)`.  The one thrown error
(`throw new Error('Could not find user record')`) becomes `Except.error`;
every week fetch failure is absorbed by `getSeasonMatchups` and
`getRemainingSchedule` as in the source. -/
def analyzeStandings (api : Api) (userId : String) (rng : Nat → ℚ) :
    Except String Analysis :=
  let currentWeek := api.currentWeek
  let allMatchups := getSeasonMatchups api.matchups currentWeek
  let records := calculateRecords api.rosters allMatchups
  let recordsWithUsers : List NamedRecord := records.map (fun record =>
    let user := api.users.find? (fun u => u.user_id == record.ownerId)
    { toTeamRecord := record
      teamName := orFalsyStr (user.bind (·.team_name))
        (orFalsyStr (user.bind (·.display_name)) "Unknown")
      username := orFalsyStr (user.bind (·.display_name)) "Unknown" })
  let powerRankings := calculatePowerRankings recordsWithUsers
  let standings := recordsWithUsers.insertionSort standingsOrderN
  let userRoster := api.rosters.find? (fun r => r.owner_id == userId)
  let userRecordOpt := userRoster.bind
    (fun ur => records.find? (fun r => r.rosterId == ur.roster_id))
  match userRecordOpt with
  | none => Except.error "Could not find user record"
  | some userRecord =>
      let userStanding : Nat :=
        ((standings.findIdx? (fun s => s.rosterId == userRecord.rosterId)).map
          (· + 1)).getD 0
      let userPowerRank : Nat :=
        ((powerRankings.find? (fun p => p.rosterId == userRecord.rosterId)).map
          (·.powerRank)).getD 0
      let playoffProb := calculatePlayoffProbability userRecord
        (recordsWithUsers.map (·.toTeamRecord)) api.league currentWeek
        api.rosters api.matchups rng
      Except.ok
        { userRecord :=
            { toTeamRecord := userRecord
              teamName :=
                (standings.find? (fun s => s.rosterId == userRecord.rosterId)).map
                  (·.teamName)
              standing := userStanding
              powerRank := userPowerRank }
          standings := standings
          powerRankings := powerRankings
          playoffProb := playoffProb
          leagueSize := standings.length
          currentWeek := currentWeek }

/-! ### Basic lemmas about record updates -/

theorem updateRecord_map_rosterId (rs : List TeamRecord) (rid : Nat)
    (f : TeamRecord → TeamRecord) (hf : ∀ r, (f r).rosterId = r.rosterId) :
    (updateRecord rs rid f).map (·.rosterId) = rs.map (·.rosterId) := by
  induction rs with
  | nil => rfl
  | cons r rest ih =>
      by_cases h : r.rosterId = rid <;> simp [updateRecord, h, hf, ih]

theorem updateRecord_map_pointsAgainst (rs : List TeamRecord) (rid : Nat)
    (f : TeamRecord → TeamRecord)
    (hf : ∀ r, (f r).pointsAgainst = r.pointsAgainst) :
    (updateRecord rs rid f).map (·.pointsAgainst) = rs.map (·.pointsAgainst) := by
  induction rs with
  | nil => rfl
  | cons r rest ih =>
      by_cases h : r.rosterId = rid <;> simp [updateRecord, h, hf, ih]

theorem simulatePair_map_pointsAgainst (simRecords : List TeamRecord)
    (week : Nat) (rng : Nat → ℚ) (k : Nat) (t1 t2 : Matchup) :
    (simulatePair simRecords week rng k t1 t2).1.map (·.pointsAgainst) =
      simRecords.map (·.pointsAgainst) := by
  unfold simulatePair
  cases h1 : simRecords.find? (fun r => r.rosterId == t1.roster_id) with
  | none => rfl
  | some record1 =>
      cases h2 : simRecords.find? (fun r => r.rosterId == t2.roster_id) with
      | none => rfl
      | some record2 =>
          dsimp only
          split_ifs
          all_goals refine (updateRecord_map_pointsAgainst _ _ _ ?_).trans ((updateRecord_map_pointsAgainst _ _ _ ?_).trans ((updateRecord_map_pointsAgainst _ _ _ ?_).trans (updateRecord_map_pointsAgainst _ _ _ ?_))) <;> exact fun _ => rfl

theorem simulateWeek_map_pointsAgainst (simRecords : List TeamRecord)
    (weekMatchups : List Matchup) (week : Nat) (rng : Nat → ℚ) (k : Nat) :
    (simulateWeek simRecords weekMatchups week rng k).1.map (·.pointsAgainst) =
      simRecords.map (·.pointsAgainst) := by
  unfold simulateWeek
  generalize groupByMatchupId weekMatchups = gs
  induction gs generalizing simRecords k with
  | nil => rfl
  | cons g rest ih =>
      simp only [List.foldl_cons]
      rcases g with _ | ⟨t1, _ | ⟨t2, _ | ⟨t3, tail⟩⟩⟩
      · exact ih simRecords k
      · exact ih simRecords k
      · exact (ih (simulatePair simRecords week rng k t1 t2).1
            (simulatePair simRecords week rng k t1 t2).2).trans
          (simulatePair_map_pointsAgainst simRecords week rng k t1 t2)
      · exact ih simRecords k

/-- Claim C10 core lemma: simulating future weeks inside one trial never
touches the `pointsAgainst` field of any trial record. -/
theorem simulateWeeks_map_pointsAgainst (simRecords : List TeamRecord)
    (futureMatchups : List (List Matchup)) (week : Nat) (rng : Nat → ℚ)
    (k : Nat) :
    (simulateWeeks simRecords futureMatchups week rng k).1.map (·.pointsAgainst) =
      simRecords.map (·.pointsAgainst) := by
  induction futureMatchups generalizing simRecords week k with
  | nil => rfl
  | cons w rest ih =>
      unfold simulateWeeks
      rw [ih, simulateWeek_map_pointsAgainst]

/-- C10: within every Monte Carlo trial, simulated future matchups update only
wins, losses, ties and pointsFor of the trial's record copies; the
`pointsAgainst` of every trial record (positionally, hence for every record)
is exactly its value at the start of the trial, for every future schedule,
every random stream, every cursor and every week index. -/
theorem c10_trial_pointsAgainst_invariant (simRecords : List TeamRecord)
    (futureMatchups : List (List Matchup)) (week : Nat) (rng : Nat → ℚ)
    (k : Nat) :
    (simulateWeeks simRecords futureMatchups week rng k).1.map (·.pointsAgainst) =
      simRecords.map (·.pointsAgainst) :=
  simulateWeeks_map_pointsAgainst simRecords futureMatchups week rng k

/-! ### Skeleton preservation: every record operation keeps the roster ids -/

theorem processMatchupPair_map_rosterId (rs : List TeamRecord)
    (t1 t2 : Matchup) :
    (processMatchupPair rs t1 t2).map (·.rosterId) = rs.map (·.rosterId) := by
  unfold processMatchupPair
  dsimp only
  split_ifs
  all_goals refine (updateRecord_map_rosterId _ _ _ ?_).trans ((updateRecord_map_rosterId _ _ _ ?_).trans ((updateRecord_map_rosterId _ _ _ ?_).trans ((updateRecord_map_rosterId _ _ _ ?_).trans ((updateRecord_map_rosterId _ _ _ ?_).trans (updateRecord_map_rosterId _ _ _ ?_))))) <;> exact fun _ => rfl

theorem applyWeek_map_rosterId (rs : List TeamRecord) (w : List Matchup) :
    (applyWeek rs w).map (·.rosterId) = rs.map (·.rosterId) := by
  unfold applyWeek
  generalize groupByMatchupId w = gs
  induction gs generalizing rs with
  | nil => rfl
  | cons g rest ih =>
      simp only [List.foldl_cons]
      rcases g with _ | ⟨t1, _ | ⟨t2, _ | ⟨t3, tail⟩⟩⟩
      · exact ih rs
      · exact ih rs
      · exact (ih (processMatchupPair rs t1 t2)).trans
          (processMatchupPair_map_rosterId rs t1 t2)
      · exact ih rs

theorem calculateRecords_map_rosterId (rosters : List Roster)
    (allMatchups : List (List Matchup)) :
    (calculateRecords rosters allMatchups).map (·.rosterId) =
      rosters.map (·.roster_id) := by
  unfold calculateRecords
  have hinit : (initRecords rosters).map (·.rosterId) = rosters.map (·.roster_id) := by
    simp [initRecords]
  rw [show (allMatchups.foldl applyWeek (initRecords rosters)).map (·.rosterId) =
      (initRecords rosters).map (·.rosterId) from ?_, hinit]
  generalize initRecords rosters = rs
  induction allMatchups generalizing rs with
  | nil => rfl
  | cons w rest ih =>
      simp only [List.foldl_cons]
      exact (ih (applyWeek rs w)).trans (applyWeek_map_rosterId rs w)

/-! ### Claim C8: the single hard failure of `analyzeStandings` -/

/-- Helper: a record for roster `ur` is always found in the aggregated
records when `ur` belongs to the league's rosters. -/
theorem find?_calculateRecords_isSome (rosters : List Roster)
    (allMatchups : List (List Matchup)) (ur : Roster) (h : ur ∈ rosters) :
    ((calculateRecords rosters allMatchups).find?
      (fun r => r.rosterId == ur.roster_id)).isSome := by
  rw [List.find?_isSome]
  have : ur.roster_id ∈ (calculateRecords rosters allMatchups).map (·.rosterId) := by
    rw [calculateRecords_map_rosterId]
    exact List.mem_map.mpr ⟨ur, h, rfl⟩
  rcases List.mem_map.mp this with ⟨rec, hrec, hid⟩
  exact ⟨rec, hrec, by simp [hid]⟩

/-- C8: `analyzeStandings` produces a result (is `Except.ok`) exactly when
some roster of the league belongs to the requested user; the single hard
failure is the absence of such a roster (and hence of the user's record).
Every other partial-data condition is absorbed: the statement quantifies over
every provider behaviour `api.matchups`, including one that fails for every
past week and returns no future schedule. -/
theorem c8_analyzeStandings_hard_failure_iff (api : Api) (userId : String)
    (rng : Nat → ℚ) :
    (analyzeStandings api userId rng).isOk = true ↔
      ∃ r ∈ api.rosters, r.owner_id = userId := by
  unfold analyzeStandings
  dsimp only
  cases hfind : api.rosters.find? (fun r => r.owner_id == userId) with
  | none =>
      rw [List.find?_eq_none] at hfind
      simp only [Option.none_bind]
      constructor
      · intro h; cases h
      · rintro ⟨r, hr, hid⟩
        exact absurd (by simp [hid] : (fun r => r.owner_id == userId) r = true)
          (hfind r hr)
  | some ur =>
      have hmem : ur ∈ api.rosters := List.mem_of_find?_eq_some hfind
      have hsome := find?_calculateRecords_isSome api.rosters
        (getSeasonMatchups api.matchups api.currentWeek) ur hmem
      simp only [Option.some_bind]
      cases hrec : (calculateRecords api.rosters
          (getSeasonMatchups api.matchups api.currentWeek)).find?
          (fun r => r.rosterId == ur.roster_id) with
      | none => rw [hrec] at hsome; cases hsome
      | some rec =>
          simp only [Except.isOk, Except.toBool]
          constructor
          · intro _
            refine ⟨ur, hmem, ?_⟩
            have := List.find?_some hfind
            simpa using this
          · intro _; trivial

/-! ### Claim C5: aggregation additivity -/

/-- Field-wise sum of two team records (identity fields from the left),
following the spec's words "summing the two results field-wise". -/
def mergeEntry (a b : TeamRecord) : TeamRecord :=
  { rosterId := a.rosterId
    ownerId := a.ownerId
    wins := a.wins + b.wins
    losses := a.losses + b.losses
    ties := a.ties + b.ties
    pointsFor := a.pointsFor + b.pointsFor
    pointsAgainst := a.pointsAgainst + b.pointsAgainst }

/-- Position-wise field-wise sum of two record lists, following the spec's
words (the lists produced by `calculateRecords` for the same rosters align
position by position). -/
def mergeRecords : List TeamRecord → List TeamRecord → List TeamRecord
  | a :: as, b :: bs => mergeEntry a b :: mergeRecords as bs
  | _, _ => []

/-- Named field updates never change the roster id. -/
theorem addPF_rosterId (p : ℚ) (r : TeamRecord) : (addPF p r).rosterId = r.rosterId := rfl

theorem addPA_rosterId (p : ℚ) (r : TeamRecord) : (addPA p r).rosterId = r.rosterId := rfl

theorem incWins_rosterId (r : TeamRecord) : (incWins r).rosterId = r.rosterId := rfl

theorem incLosses_rosterId (r : TeamRecord) : (incLosses r).rosterId = r.rosterId := rfl

theorem incTies_rosterId (r : TeamRecord) : (incTies r).rosterId = r.rosterId := rfl

/-- Updates that add a constant to counting fields commute with `mergeEntry`:
this is associativity of addition, field by field. -/
theorem addPF_mergeEntry (p : ℚ) (a b : TeamRecord) :
    addPF p (mergeEntry a b) = mergeEntry a (addPF p b) := by
  simp [addPF, mergeEntry, add_assoc]

theorem addPA_mergeEntry (p : ℚ) (a b : TeamRecord) :
    addPA p (mergeEntry a b) = mergeEntry a (addPA p b) := by
  simp [addPA, mergeEntry, add_assoc]

theorem incWins_mergeEntry (a b : TeamRecord) :
    incWins (mergeEntry a b) = mergeEntry a (incWins b) := by
  simp [incWins, mergeEntry, Nat.add_assoc]

theorem incLosses_mergeEntry (a b : TeamRecord) :
    incLosses (mergeEntry a b) = mergeEntry a (incLosses b) := by
  simp [incLosses, mergeEntry, Nat.add_assoc]

theorem incTies_mergeEntry (a b : TeamRecord) :
    incTies (mergeEntry a b) = mergeEntry a (incTies b) := by
  simp [incTies, mergeEntry, Nat.add_assoc]

/-- Updating the merged list is the merge of the updated right list, for
aligned skeletons and updates that commute with `mergeEntry`. -/
theorem updateRecord_mergeRecords (A B : List TeamRecord) (rid : Nat)
    (f : TeamRecord → TeamRecord)
    (hskel : A.map (·.rosterId) = B.map (·.rosterId))
    (hf : ∀ a b, f (mergeEntry a b) = mergeEntry a (f b)) :
    updateRecord (mergeRecords A B) rid f = mergeRecords A (updateRecord B rid f) := by
  induction A generalizing B with
  | nil =>
      cases B with
      | nil => rfl
      | cons b bs => simp at hskel
  | cons a as ih =>
      cases B with
      | nil => simp at hskel
      | cons b bs =>
          simp only [List.map_cons, List.cons.injEq] at hskel
          obtain ⟨hab, hrest⟩ := hskel
          show updateRecord (mergeEntry a b :: mergeRecords as bs) rid f = _
          by_cases h : b.rosterId = rid
          · rw [updateRecord, if_pos (by simpa [mergeEntry, hab] using h), hf,
              updateRecord, if_pos h]
            rfl
          · rw [updateRecord, if_neg (by simpa [mergeEntry, hab] using h),
              updateRecord, if_neg h]
            show _ :: updateRecord (mergeRecords as bs) rid f = _
            rw [ih bs hrest]
            rfl

/-- Processing a matchup pair commutes with merging: the pair's contribution
is the same additive delta on both sides. -/
theorem processMatchupPair_mergeRecords (A B : List TeamRecord)
    (t1 t2 : Matchup) (hskel : A.map (·.rosterId) = B.map (·.rosterId)) :
    processMatchupPair (mergeRecords A B) t1 t2 =
      mergeRecords A (processMatchupPair B t1 t2) := by
  unfold processMatchupPair
  dsimp only
  have s0 := hskel
  have s1 : A.map (·.rosterId) =
      (updateRecord B t1.roster_id (addPF (t1.points.getD 0))).map (·.rosterId) :=
    s0.trans (updateRecord_map_rosterId _ _ _ (addPF_rosterId _)).symm
  have s2 : A.map (·.rosterId) =
      (updateRecord (updateRecord B t1.roster_id (addPF (t1.points.getD 0)))
        t1.roster_id (addPA (t2.points.getD 0))).map (·.rosterId) :=
    s1.trans (updateRecord_map_rosterId _ _ _ (addPA_rosterId _)).symm
  have s3 : A.map (·.rosterId) =
      (updateRecord (updateRecord (updateRecord B t1.roster_id
        (addPF (t1.points.getD 0))) t1.roster_id (addPA (t2.points.getD 0)))
        t2.roster_id (addPF (t2.points.getD 0))).map (·.rosterId) :=
    s2.trans (updateRecord_map_rosterId _ _ _ (addPF_rosterId _)).symm
  have s4 : A.map (·.rosterId) =
      (updateRecord (updateRecord (updateRecord (updateRecord B t1.roster_id
        (addPF (t1.points.getD 0))) t1.roster_id (addPA (t2.points.getD 0)))
        t2.roster_id (addPF (t2.points.getD 0))) t2.roster_id
        (addPA (t1.points.getD 0))).map (·.rosterId) :=
    s3.trans (updateRecord_map_rosterId _ _ _ (addPA_rosterId _)).symm
  rw [updateRecord_mergeRecords _ _ _ _ s0 (addPF_mergeEntry _),
    updateRecord_mergeRecords _ _ _ _ s1 (addPA_mergeEntry _),
    updateRecord_mergeRecords _ _ _ _ s2 (addPF_mergeEntry _),
    updateRecord_mergeRecords _ _ _ _ s3 (addPA_mergeEntry _)]
  have s5 : ∀ C : List TeamRecord, A.map (·.rosterId) = C.map (·.rosterId) →
      ∀ rid1 rid2 g1 g2, (∀ a b, g1 (mergeEntry a b) = mergeEntry a (g1 b)) →
      (∀ a b, g2 (mergeEntry a b) = mergeEntry a (g2 b)) →
      (∀ r : TeamRecord, (g1 r).rosterId = r.rosterId) →
      updateRecord (updateRecord (mergeRecords A C) rid1 g1) rid2 g2 =
        mergeRecords A (updateRecord (updateRecord C rid1 g1) rid2 g2) := by
    intro C hC rid1 rid2 g1 g2 hg1 hg2 hg1id
    rw [updateRecord_mergeRecords _ _ _ _ hC hg1,
      updateRecord_mergeRecords _ _ _ _
        (hC.trans (updateRecord_map_rosterId _ _ _ hg1id).symm) hg2]
  split_ifs
  · exact s5 _ s4 _ _ _ _ incWins_mergeEntry incLosses_mergeEntry incWins_rosterId
  · exact s5 _ s4 _ _ _ _ incWins_mergeEntry incLosses_mergeEntry incWins_rosterId
  · exact s5 _ s4 _ _ _ _ incTies_mergeEntry incTies_mergeEntry incTies_rosterId

/-- Applying one week of matchups commutes with merging. -/
theorem applyWeek_mergeRecords (A B : List TeamRecord) (w : List Matchup)
    (hskel : A.map (·.rosterId) = B.map (·.rosterId)) :
    applyWeek (mergeRecords A B) w = mergeRecords A (applyWeek B w) := by
  unfold applyWeek
  generalize groupByMatchupId w = gs
  induction gs generalizing B with
  | nil => rfl
  | cons g rest ih =>
      simp only [List.foldl_cons]
      rcases g with _ | ⟨t1, _ | ⟨t2, _ | ⟨t3, tail⟩⟩⟩
      · exact ih B hskel
      · exact ih B hskel
      · dsimp only
        rw [processMatchupPair_mergeRecords A B t1 t2 hskel]
        exact ih (processMatchupPair B t1 t2)
          (hskel.trans (processMatchupPair_map_rosterId B t1 t2).symm)
      · exact ih B hskel

/-- Folding weeks over records preserves the roster-id skeleton. -/
theorem foldl_applyWeek_map_rosterId (ws : List (List Matchup))
    (rs : List TeamRecord) :
    (ws.foldl applyWeek rs).map (·.rosterId) = rs.map (·.rosterId) := by
  induction ws generalizing rs with
  | nil => rfl
  | cons w rest ih =>
      simp only [List.foldl_cons]
      exact (ih (applyWeek rs w)).trans (applyWeek_map_rosterId rs w)

/-- Folding a sequence of weeks commutes with merging. -/
theorem foldl_applyWeek_mergeRecords (A B : List TeamRecord)
    (ws : List (List Matchup))
    (hskel : A.map (·.rosterId) = B.map (·.rosterId)) :
    ws.foldl applyWeek (mergeRecords A B) =
      mergeRecords A (ws.foldl applyWeek B) := by
  induction ws generalizing B with
  | nil => rfl
  | cons w rest ih =>
      simp only [List.foldl_cons]
      rw [applyWeek_mergeRecords A B w hskel]
      exact ih (applyWeek B w)
        (hskel.trans (applyWeek_map_rosterId B w).symm)

/-- Merging with the all-zero initial records is the identity. -/
theorem mergeRecords_initRecords (X : List TeamRecord) (rosters : List Roster)
    (hlen : X.length = rosters.length) :
    mergeRecords X (initRecords rosters) = X := by
  induction X generalizing rosters with
  | nil => cases rosters <;> rfl
  | cons x xs ih =>
      cases rosters with
      | nil => simp at hlen
      | cons r rest =>
          simp only [List.length_cons, Nat.add_right_cancel_iff] at hlen
          show mergeEntry x _ :: mergeRecords xs (initRecords rest) = x :: xs
          rw [ih rest hlen]
          simp [mergeEntry, initRecords]

/-- C5: aggregating the weeks before a split point and the weeks after it
separately, then merging the two record lists field-wise, gives exactly the
records of aggregating all weeks at once.  The hypotheses restrict the
statement to inputs on which the source `calculateRecords` is defined:
every referenced roster id has a dictionary entry and dictionary keys are
unique. -/
theorem c5_calculateRecords_additive (rosters : List Roster)
    (allMatchups : List (List Matchup)) (k : Nat)
    (hwf : matchupsWellFormed rosters allMatchups)
    (hnodup : (rosters.map (·.roster_id)).Nodup) :
    mergeRecords (calculateRecords rosters (allMatchups.take k))
        (calculateRecords rosters (allMatchups.drop k)) =
      calculateRecords rosters allMatchups := by
  conv_rhs => rw [← List.take_append_drop k allMatchups]
  unfold calculateRecords
  rw [List.foldl_append]
  have hskel : ((allMatchups.take k).foldl applyWeek (initRecords rosters)).map
      (·.rosterId) = (initRecords rosters).map (·.rosterId) :=
    foldl_applyWeek_map_rosterId _ _
  rw [← foldl_applyWeek_mergeRecords _ _ _ hskel,
    mergeRecords_initRecords _ rosters
      (by simpa [initRecords] using congrArg List.length hskel)]

/-- Witness for C5 at a concrete league: two rosters, two weeks, split after
the first week. -/
theorem c5_calculateRecords_additive_witness :
    matchupsWellFormed [⟨1, "uA"⟩, ⟨2, "uB"⟩]
        [[⟨1, 1, some (221/2)⟩, ⟨1, 2, some 98⟩],
         [⟨1, 1, some 70⟩, ⟨1, 2, some 70⟩]] ∧
      (([⟨1, "uA"⟩, ⟨2, "uB"⟩] : List Roster).map (·.roster_id)).Nodup ∧
      mergeRecords
          (calculateRecords [⟨1, "uA"⟩, ⟨2, "uB"⟩]
            (([[⟨1, 1, some (221/2)⟩, ⟨1, 2, some 98⟩],
               [⟨1, 1, some 70⟩, ⟨1, 2, some 70⟩]] :
              List (List Matchup)).take 1))
          (calculateRecords [⟨1, "uA"⟩, ⟨2, "uB"⟩]
            (([[⟨1, 1, some (221/2)⟩, ⟨1, 2, some 98⟩],
               [⟨1, 1, some 70⟩, ⟨1, 2, some 70⟩]] :
              List (List Matchup)).drop 1)) =
        calculateRecords [⟨1, "uA"⟩, ⟨2, "uB"⟩]
          [[⟨1, 1, some (221/2)⟩, ⟨1, 2, some 98⟩],
           [⟨1, 1, some 70⟩, ⟨1, 2, some 70⟩]] :=
  ⟨by decide, by decide,
    c5_calculateRecords_additive _ _ 1 (by decide) (by decide)⟩

/-! ### Claim C6: conservation of points -/

/-- League-wide total of `pointsFor` over a record list. -/
def totalPointsFor (rs : List TeamRecord) : ℚ :=
  (rs.map (·.pointsFor)).sum

/-- League-wide total of `pointsAgainst` over a record list. -/
def totalPointsAgainst (rs : List TeamRecord) : ℚ :=
  (rs.map (·.pointsAgainst)).sum

/-- Named field updates leave the other point total unchanged. -/
theorem addPA_pointsFor (p : ℚ) (r : TeamRecord) : (addPA p r).pointsFor = r.pointsFor := rfl

theorem addPF_pointsAgainst (p : ℚ) (r : TeamRecord) : (addPF p r).pointsAgainst = r.pointsAgainst := rfl

theorem incWins_pointsFor (r : TeamRecord) : (incWins r).pointsFor = r.pointsFor := rfl

theorem incWins_pointsAgainst (r : TeamRecord) : (incWins r).pointsAgainst = r.pointsAgainst := rfl

theorem incLosses_pointsFor (r : TeamRecord) : (incLosses r).pointsFor = r.pointsFor := rfl

theorem incLosses_pointsAgainst (r : TeamRecord) : (incLosses r).pointsAgainst = r.pointsAgainst := rfl

theorem incTies_pointsFor (r : TeamRecord) : (incTies r).pointsFor = r.pointsFor := rfl

theorem incTies_pointsAgainst (r : TeamRecord) : (incTies r).pointsAgainst = r.pointsAgainst := rfl

theorem totalPointsFor_updateRecord_neutral (rs : List TeamRecord) (rid : Nat)
    (f : TeamRecord → TeamRecord) (hf : ∀ r, (f r).pointsFor = r.pointsFor) :
    totalPointsFor (updateRecord rs rid f) = totalPointsFor rs := by
  induction rs with
  | nil => rfl
  | cons r rest ih =>
      by_cases h : r.rosterId = rid <;>
        simp [updateRecord, h, totalPointsFor, hf] <;>
        simpa [totalPointsFor] using ih

theorem totalPointsAgainst_updateRecord_neutral (rs : List TeamRecord) (rid : Nat)
    (f : TeamRecord → TeamRecord) (hf : ∀ r, (f r).pointsAgainst = r.pointsAgainst) :
    totalPointsAgainst (updateRecord rs rid f) = totalPointsAgainst rs := by
  induction rs with
  | nil => rfl
  | cons r rest ih =>
      by_cases h : r.rosterId = rid <;>
        simp [updateRecord, h, totalPointsAgainst, hf] <;>
        simpa [totalPointsAgainst] using ih

theorem totalPointsFor_updateRecord_addPF (rs : List TeamRecord) (rid : Nat)
    (p : ℚ) (h : rid ∈ rs.map (·.rosterId)) :
    totalPointsFor (updateRecord rs rid (addPF p)) = totalPointsFor rs + p := by
  induction rs with
  | nil => simp at h
  | cons r rest ih =>
      by_cases hr : r.rosterId = rid
      · simp [updateRecord, hr, totalPointsFor, addPF]
        ring
      · have hmem : rid ∈ rest.map (·.rosterId) := by
          rcases List.mem_map.mp h with ⟨x, hx, hid⟩
          rcases List.mem_cons.mp hx with rfl | hx'
          · exact absurd hid hr
          · exact List.mem_map.mpr ⟨x, hx', hid⟩
        simp only [updateRecord, if_neg hr, totalPointsFor, List.map_cons,
          List.sum_cons]
        rw [show ((updateRecord rest rid (addPF p)).map (·.pointsFor)).sum =
            totalPointsFor (updateRecord rest rid (addPF p)) from rfl,
          ih hmem]
        unfold totalPointsFor
        ring

theorem totalPointsAgainst_updateRecord_addPA (rs : List TeamRecord) (rid : Nat)
    (p : ℚ) (h : rid ∈ rs.map (·.rosterId)) :
    totalPointsAgainst (updateRecord rs rid (addPA p)) = totalPointsAgainst rs + p := by
  induction rs with
  | nil => simp at h
  | cons r rest ih =>
      by_cases hr : r.rosterId = rid
      · simp [updateRecord, hr, totalPointsAgainst, addPA]
        ring
      · have hmem : rid ∈ rest.map (·.rosterId) := by
          rcases List.mem_map.mp h with ⟨x, hx, hid⟩
          rcases List.mem_cons.mp hx with rfl | hx'
          · exact absurd hid hr
          · exact List.mem_map.mpr ⟨x, hx', hid⟩
        simp only [updateRecord, if_neg hr, totalPointsAgainst, List.map_cons,
          List.sum_cons]
        rw [show ((updateRecord rest rid (addPA p)).map (·.pointsAgainst)).sum =
            totalPointsAgainst (updateRecord rest rid (addPA p)) from rfl,
          ih hmem]
        unfold totalPointsAgainst
        ring

/-- Processing one valid pair adds each side's score to the league's total
`pointsFor` and, symmetrically, to the total `pointsAgainst`. -/
theorem totalPointsFor_processMatchupPair (rs : List TeamRecord)
    (t1 t2 : Matchup) (h1 : t1.roster_id ∈ rs.map (·.rosterId))
    (h2 : t2.roster_id ∈ rs.map (·.rosterId)) :
    totalPointsFor (processMatchupPair rs t1 t2) =
      totalPointsFor rs + t1.points.getD 0 + t2.points.getD 0 := by
  have h2' : t2.roster_id ∈
      (updateRecord (updateRecord rs t1.roster_id (addPF (t1.points.getD 0)))
        t1.roster_id (addPA (t2.points.getD 0))).map (·.rosterId) := by
    rw [updateRecord_map_rosterId _ _ _ (addPA_rosterId _),
      updateRecord_map_rosterId _ _ _ (addPF_rosterId _)]
    exact h2
  unfold processMatchupPair
  dsimp only
  split_ifs
  · rw [totalPointsFor_updateRecord_neutral _ _ _ incLosses_pointsFor,
      totalPointsFor_updateRecord_neutral _ _ _ incWins_pointsFor,
      totalPointsFor_updateRecord_neutral _ _ _ (addPA_pointsFor _),
      totalPointsFor_updateRecord_addPF _ _ _ h2',
      totalPointsFor_updateRecord_neutral _ _ _ (addPA_pointsFor _),
      totalPointsFor_updateRecord_addPF _ _ _ h1]
  · rw [totalPointsFor_updateRecord_neutral _ _ _ incLosses_pointsFor,
      totalPointsFor_updateRecord_neutral _ _ _ incWins_pointsFor,
      totalPointsFor_updateRecord_neutral _ _ _ (addPA_pointsFor _),
      totalPointsFor_updateRecord_addPF _ _ _ h2',
      totalPointsFor_updateRecord_neutral _ _ _ (addPA_pointsFor _),
      totalPointsFor_updateRecord_addPF _ _ _ h1]
  · rw [totalPointsFor_updateRecord_neutral _ _ _ incTies_pointsFor,
      totalPointsFor_updateRecord_neutral _ _ _ incTies_pointsFor,
      totalPointsFor_updateRecord_neutral _ _ _ (addPA_pointsFor _),
      totalPointsFor_updateRecord_addPF _ _ _ h2',
      totalPointsFor_updateRecord_neutral _ _ _ (addPA_pointsFor _),
      totalPointsFor_updateRecord_addPF _ _ _ h1]

theorem totalPointsAgainst_processMatchupPair (rs : List TeamRecord)
    (t1 t2 : Matchup) (h1 : t1.roster_id ∈ rs.map (·.rosterId))
    (h2 : t2.roster_id ∈ rs.map (·.rosterId)) :
    totalPointsAgainst (processMatchupPair rs t1 t2) =
      totalPointsAgainst rs + t2.points.getD 0 + t1.points.getD 0 := by
  have h1' : t1.roster_id ∈
      (updateRecord rs t1.roster_id (addPF (t1.points.getD 0))).map (·.rosterId) := by
    rw [updateRecord_map_rosterId _ _ _ (addPF_rosterId _)]
    exact h1
  have h2' : t2.roster_id ∈
      (updateRecord (updateRecord (updateRecord rs t1.roster_id
        (addPF (t1.points.getD 0))) t1.roster_id (addPA (t2.points.getD 0)))
        t2.roster_id (addPF (t2.points.getD 0))).map (·.rosterId) := by
    rw [updateRecord_map_rosterId _ _ _ (addPF_rosterId _),
      updateRecord_map_rosterId _ _ _ (addPA_rosterId _),
      updateRecord_map_rosterId _ _ _ (addPF_rosterId _)]
    exact h2
  unfold processMatchupPair
  dsimp only
  split_ifs
  · rw [totalPointsAgainst_updateRecord_neutral _ _ _ incLosses_pointsAgainst,
      totalPointsAgainst_updateRecord_neutral _ _ _ incWins_pointsAgainst,
      totalPointsAgainst_updateRecord_addPA _ _ _ h2',
      totalPointsAgainst_updateRecord_neutral _ _ _ (addPF_pointsAgainst _),
      totalPointsAgainst_updateRecord_addPA _ _ _ h1',
      totalPointsAgainst_updateRecord_neutral _ _ _ (addPF_pointsAgainst _)]
  · rw [totalPointsAgainst_updateRecord_neutral _ _ _ incLosses_pointsAgainst,
      totalPointsAgainst_updateRecord_neutral _ _ _ incWins_pointsAgainst,
      totalPointsAgainst_updateRecord_addPA _ _ _ h2',
      totalPointsAgainst_updateRecord_neutral _ _ _ (addPF_pointsAgainst _),
      totalPointsAgainst_updateRecord_addPA _ _ _ h1',
      totalPointsAgainst_updateRecord_neutral _ _ _ (addPF_pointsAgainst _)]
  · rw [totalPointsAgainst_updateRecord_neutral _ _ _ incTies_pointsAgainst,
      totalPointsAgainst_updateRecord_neutral _ _ _ incTies_pointsAgainst,
      totalPointsAgainst_updateRecord_addPA _ _ _ h2',
      totalPointsAgainst_updateRecord_neutral _ _ _ (addPF_pointsAgainst _),
      totalPointsAgainst_updateRecord_addPA _ _ _ h1',
      totalPointsAgainst_updateRecord_neutral _ _ _ (addPF_pointsAgainst _)]

/-- Entries of a matchup group come from the grouped week. -/
theorem mem_of_mem_groupByMatchupId (ms : List Matchup) (g : List Matchup)
    (hg : g ∈ groupByMatchupId ms) (m : Matchup) (hm : m ∈ g) : m ∈ ms := by
  unfold groupByMatchupId at hg
  rcases List.mem_map.mp hg with ⟨i, _, rfl⟩
  exact List.mem_of_mem_filter hm

/-- One aggregated week preserves equality of the two league totals. -/
theorem applyWeek_totals_eq (rs : List TeamRecord) (w : List Matchup)
    (hmem : ∀ m ∈ w, m.roster_id ∈ rs.map (·.rosterId))
    (heq : totalPointsFor rs = totalPointsAgainst rs) :
    totalPointsFor (applyWeek rs w) = totalPointsAgainst (applyWeek rs w) := by
  unfold applyWeek
  have hgmem : ∀ g ∈ groupByMatchupId w, ∀ m ∈ g,
      m.roster_id ∈ rs.map (·.rosterId) :=
    fun g hg m hm => hmem m (mem_of_mem_groupByMatchupId w g hg m hm)
  generalize groupByMatchupId w = gs at hgmem
  clear hmem
  induction gs generalizing rs with
  | nil => exact heq
  | cons g rest ih =>
      simp only [List.foldl_cons]
      rcases g with _ | ⟨t1, _ | ⟨t2, _ | ⟨t3, tail⟩⟩⟩
      · exact ih rs heq (fun g hg => hgmem g (List.mem_cons_of_mem _ hg))
      · exact ih rs heq (fun g hg => hgmem g (List.mem_cons_of_mem _ hg))
      · dsimp only
        have h1 := hgmem _ (List.mem_cons_self _ _) t1 (by simp)
        have h2 := hgmem _ (List.mem_cons_self _ _) t2 (by simp)
        refine ih (processMatchupPair rs t1 t2) ?_ ?_
        · rw [totalPointsFor_processMatchupPair rs t1 t2 h1 h2,
            totalPointsAgainst_processMatchupPair rs t1 t2 h1 h2, heq]
          ring
        · intro g hg m hm
          rw [processMatchupPair_map_rosterId]
          exact hgmem g (List.mem_cons_of_mem _ hg) m hm
      · exact ih rs heq (fun g hg => hgmem g (List.mem_cons_of_mem _ hg))

/-- For well-formed inputs, the aggregated records have equal league totals of
points scored and points allowed. -/
theorem totals_calculateRecords (rosters : List Roster)
    (allMatchups : List (List Matchup))
    (hwf : matchupsWellFormed rosters allMatchups) :
    totalPointsFor (calculateRecords rosters allMatchups) =
      totalPointsAgainst (calculateRecords rosters allMatchups) := by
  unfold calculateRecords
  have hinit : (initRecords rosters).map (·.rosterId) = rosters.map (·.roster_id) := by
    simp [initRecords]
  have h0 : totalPointsFor (initRecords rosters) =
      totalPointsAgainst (initRecords rosters) := by
    simp [totalPointsFor, totalPointsAgainst, initRecords, List.map_map]
    rfl
  have hmem0 : ∀ w ∈ allMatchups, ∀ m ∈ w,
      m.roster_id ∈ (initRecords rosters).map (·.rosterId) := by
    intro w hw m hm
    rw [hinit]
    exact hwf w hw m hm
  clear hwf hinit
  generalize initRecords rosters = rs at h0 hmem0 ⊢
  induction allMatchups generalizing rs with
  | nil => exact h0
  | cons w rest ih =>
      simp only [List.foldl_cons]
      refine ih (applyWeek rs w) ?_ ?_
      · exact applyWeek_totals_eq rs w (hmem0 w (List.mem_cons_self _ _)) h0
      · intro w' hw' m hm
        rw [applyWeek_map_rosterId]
        exact hmem0 w' (List.mem_cons_of_mem _ hw') m hm

/-- Updating at one roster id does not change the record found for another. -/
theorem find?_updateRecord_ne (rs : List TeamRecord) (rid q : Nat)
    (f : TeamRecord → TeamRecord) (hne : rid ≠ q)
    (hf : ∀ r, (f r).rosterId = r.rosterId) :
    (updateRecord rs rid f).find? (fun r => r.rosterId == q) =
      rs.find? (fun r => r.rosterId == q) := by
  induction rs with
  | nil => rfl
  | cons r rest ih =>
      by_cases h : r.rosterId = rid
      · rw [updateRecord, if_pos h]
        have hq : ((f r).rosterId == q) = false := by
          simp [hf, h, hne]
        have hq' : (r.rosterId == q) = false := by simp [h, hne]
        rw [List.find?_cons_of_neg _ (by simp [hq]),
          List.find?_cons_of_neg _ (by simp [hq'])]
      · rw [updateRecord, if_neg h]
        by_cases hq : r.rosterId = q
        · rw [List.find?_cons_of_pos _ (by simp [hq]),
            List.find?_cons_of_pos _ (by simp [hq])]
        · rw [List.find?_cons_of_neg _ (by simp [hq]),
            List.find?_cons_of_neg _ (by simp [hq])]
          exact ih

/-- Updating at a roster id maps the record found for that id. -/
theorem find?_updateRecord_eq (rs : List TeamRecord) (rid : Nat)
    (f : TeamRecord → TeamRecord) (hf : ∀ r, (f r).rosterId = r.rosterId) :
    (updateRecord rs rid f).find? (fun r => r.rosterId == rid) =
      (rs.find? (fun r => r.rosterId == rid)).map f := by
  induction rs with
  | nil => rfl
  | cons r rest ih =>
      by_cases h : r.rosterId = rid
      · rw [updateRecord, if_pos h]
        rw [List.find?_cons_of_pos _ (by simp [hf, h]),
          List.find?_cons_of_pos _ (by simp [h])]
        rfl
      · rw [updateRecord, if_neg h]
        rw [List.find?_cons_of_neg _ (by simp [h]),
          List.find?_cons_of_neg _ (by simp [h])]
        exact ih

/-- Membership in the roster-id skeleton yields a found record. -/
theorem exists_find?_of_mem_map_rosterId (rs : List TeamRecord) (q : Nat)
    (h : q ∈ rs.map (·.rosterId)) :
    ∃ r, rs.find? (fun r => r.rosterId == q) = some r := by
  rcases List.mem_map.mp h with ⟨x, hx, hid⟩
  have hp : ((fun r => r.rosterId == q) x) = true := by
    show (x.rosterId == q) = true
    rw [hid]
    exact beq_self_eq_true q
  have hex : ∃ y ∈ rs, (fun r => r.rosterId == q) y := ⟨x, hx, hp⟩
  exact Option.isSome_iff_exists.mp (List.find?_isSome.mpr hex)

/-- Per-pair conservation: processing one valid two-entry matchup group adds
`points1` to team1's `pointsFor` and to team2's `pointsAgainst`, and `points2`
to team2's `pointsFor` and to team1's `pointsAgainst`. -/
theorem processMatchupPair_delta (rs : List TeamRecord) (t1 t2 : Matchup)
    (hne : t1.roster_id ≠ t2.roster_id)
    (h1 : t1.roster_id ∈ rs.map (·.rosterId))
    (h2 : t2.roster_id ∈ rs.map (·.rosterId)) :
    ∃ r1 r2 r1' r2',
      rs.find? (fun r => r.rosterId == t1.roster_id) = some r1 ∧
      rs.find? (fun r => r.rosterId == t2.roster_id) = some r2 ∧
      (processMatchupPair rs t1 t2).find?
        (fun r => r.rosterId == t1.roster_id) = some r1' ∧
      (processMatchupPair rs t1 t2).find?
        (fun r => r.rosterId == t2.roster_id) = some r2' ∧
      r1'.pointsFor = r1.pointsFor + t1.points.getD 0 ∧
      r2'.pointsAgainst = r2.pointsAgainst + t1.points.getD 0 ∧
      r2'.pointsFor = r2.pointsFor + t2.points.getD 0 ∧
      r1'.pointsAgainst = r1.pointsAgainst + t2.points.getD 0 := by
  have hne' : t2.roster_id ≠ t1.roster_id := Ne.symm hne
  obtain ⟨r1, hr1⟩ := exists_find?_of_mem_map_rosterId rs t1.roster_id h1
  obtain ⟨r2, hr2⟩ := exists_find?_of_mem_map_rosterId rs t2.roster_id h2
  unfold processMatchupPair
  dsimp only
  split_ifs
  · refine ⟨r1, r2,
      incWins (addPA (t2.points.getD 0) (addPF (t1.points.getD 0) r1)),
      incLosses (addPA (t1.points.getD 0) (addPF (t2.points.getD 0) r2)),
      hr1, hr2, ?_, ?_, rfl, rfl, rfl, rfl⟩
    · rw [find?_updateRecord_ne _ _ _ _ hne' incLosses_rosterId,
        find?_updateRecord_eq _ _ _ incWins_rosterId,
        find?_updateRecord_ne _ _ _ _ hne' (addPA_rosterId _),
        find?_updateRecord_ne _ _ _ _ hne' (addPF_rosterId _),
        find?_updateRecord_eq _ _ _ (addPA_rosterId _),
        find?_updateRecord_eq _ _ _ (addPF_rosterId _), hr1]
      rfl
    · rw [find?_updateRecord_eq _ _ _ incLosses_rosterId,
        find?_updateRecord_ne _ _ _ _ hne incWins_rosterId,
        find?_updateRecord_eq _ _ _ (addPA_rosterId _),
        find?_updateRecord_eq _ _ _ (addPF_rosterId _),
        find?_updateRecord_ne _ _ _ _ hne (addPA_rosterId _),
        find?_updateRecord_ne _ _ _ _ hne (addPF_rosterId _), hr2]
      rfl
  · refine ⟨r1, r2,
      incLosses (addPA (t2.points.getD 0) (addPF (t1.points.getD 0) r1)),
      incWins (addPA (t1.points.getD 0) (addPF (t2.points.getD 0) r2)),
      hr1, hr2, ?_, ?_, rfl, rfl, rfl, rfl⟩
    · rw [find?_updateRecord_eq _ _ _ incLosses_rosterId,
        find?_updateRecord_ne _ _ _ _ hne' incWins_rosterId,
        find?_updateRecord_ne _ _ _ _ hne' (addPA_rosterId _),
        find?_updateRecord_ne _ _ _ _ hne' (addPF_rosterId _),
        find?_updateRecord_eq _ _ _ (addPA_rosterId _),
        find?_updateRecord_eq _ _ _ (addPF_rosterId _), hr1]
      rfl
    · rw [find?_updateRecord_ne _ _ _ _ hne incLosses_rosterId,
        find?_updateRecord_eq _ _ _ incWins_rosterId,
        find?_updateRecord_eq _ _ _ (addPA_rosterId _),
        find?_updateRecord_eq _ _ _ (addPF_rosterId _),
        find?_updateRecord_ne _ _ _ _ hne (addPA_rosterId _),
        find?_updateRecord_ne _ _ _ _ hne (addPF_rosterId _), hr2]
      rfl
  · refine ⟨r1, r2,
      incTies (addPA (t2.points.getD 0) (addPF (t1.points.getD 0) r1)),
      incTies (addPA (t1.points.getD 0) (addPF (t2.points.getD 0) r2)),
      hr1, hr2, ?_, ?_, rfl, rfl, rfl, rfl⟩
    · rw [find?_updateRecord_ne _ _ _ _ hne' incTies_rosterId,
        find?_updateRecord_eq _ _ _ incTies_rosterId,
        find?_updateRecord_ne _ _ _ _ hne' (addPA_rosterId _),
        find?_updateRecord_ne _ _ _ _ hne' (addPF_rosterId _),
        find?_updateRecord_eq _ _ _ (addPA_rosterId _),
        find?_updateRecord_eq _ _ _ (addPF_rosterId _), hr1]
      rfl
    · rw [find?_updateRecord_eq _ _ _ incTies_rosterId,
        find?_updateRecord_ne _ _ _ _ hne incTies_rosterId,
        find?_updateRecord_eq _ _ _ (addPA_rosterId _),
        find?_updateRecord_eq _ _ _ (addPF_rosterId _),
        find?_updateRecord_ne _ _ _ _ hne (addPA_rosterId _),
        find?_updateRecord_ne _ _ _ _ hne (addPF_rosterId _), hr2]
      rfl

/-- C6: for every valid matchup pair processed by `calculateRecords`, the
`pointsFor` added to one team equals the `pointsAgainst` added to the other
team and vice versa; consequently, over the mapping returned by
`calculateRecords`, the total `pointsFor` equals the total `pointsAgainst`
(for the well-formed inputs on which the source dictionary writes are
defined). -/
theorem c6_points_conservation :
    (∀ (rs : List TeamRecord) (t1 t2 : Matchup),
        t1.roster_id ≠ t2.roster_id →
        t1.roster_id ∈ rs.map (·.rosterId) →
        t2.roster_id ∈ rs.map (·.rosterId) →
        ∃ r1 r2 r1' r2',
          rs.find? (fun r => r.rosterId == t1.roster_id) = some r1 ∧
          rs.find? (fun r => r.rosterId == t2.roster_id) = some r2 ∧
          (processMatchupPair rs t1 t2).find?
            (fun r => r.rosterId == t1.roster_id) = some r1' ∧
          (processMatchupPair rs t1 t2).find?
            (fun r => r.rosterId == t2.roster_id) = some r2' ∧
          r1'.pointsFor = r1.pointsFor + t1.points.getD 0 ∧
          r2'.pointsAgainst = r2.pointsAgainst + t1.points.getD 0 ∧
          r2'.pointsFor = r2.pointsFor + t2.points.getD 0 ∧
          r1'.pointsAgainst = r1.pointsAgainst + t2.points.getD 0) ∧
    (∀ (rosters : List Roster) (allMatchups : List (List Matchup)),
        matchupsWellFormed rosters allMatchups →
        totalPointsFor (calculateRecords rosters allMatchups) =
          totalPointsAgainst (calculateRecords rosters allMatchups)) :=
  ⟨processMatchupPair_delta, totals_calculateRecords⟩

/-- Witness for C6 at the concrete two-team league of the C5 witness. -/
theorem c6_points_conservation_witness :
    matchupsWellFormed [⟨1, "uA"⟩, ⟨2, "uB"⟩]
        [[⟨1, 1, some (221/2)⟩, ⟨1, 2, some 98⟩]] ∧
      totalPointsFor (calculateRecords [⟨1, "uA"⟩, ⟨2, "uB"⟩]
          [[⟨1, 1, some (221/2)⟩, ⟨1, 2, some 98⟩]]) =
        totalPointsAgainst (calculateRecords [⟨1, "uA"⟩, ⟨2, "uB"⟩]
          [[⟨1, 1, some (221/2)⟩, ⟨1, 2, some 98⟩]]) :=
  ⟨by decide,
    c6_points_conservation.2 [⟨1, "uA"⟩, ⟨2, "uB"⟩]
      [[⟨1, 1, some (221/2)⟩, ⟨1, 2, some 98⟩]] (by decide)⟩

/-! ### Claim C7: the heuristic path is clamped to `[1, 99]` -/

/-- Rounding keeps a rational bounded by `[1, 99]` inside `[1, 99]`. -/
theorem round_mem_clamp (q : ℚ) (h1 : 1 ≤ q) (h2 : q ≤ 99) :
    1 ≤ round q ∧ round q ≤ 99 := by
  rw [round_eq]
  constructor
  · rw [Int.le_floor]
    push_cast
    linarith
  · have hlt : ⌊q + 1 / 2⌋ < 100 := by
      rw [Int.floor_lt]
      push_cast
      linarith

    omega

/-- C7: whenever `calculatePlayoffProbability` takes the heuristic fallback
path (the zero-weeks early return does not fire and no usable future schedule
exists), the returned probability lies in `[1, 99]`, including after the
final rounding.  `allRecords ≠ []` keeps the model on inputs where the
source's league-average division is defined. -/
theorem c7_heuristic_probability_clamped (record : TeamRecord)
    (allRecords : List TeamRecord) (league : League) (currentWeek : Nat)
    (rosters : List Roster) (api : Nat → Option (List Matchup))
    (rng : Nat → ℚ)
    (hne : allRecords ≠ [])
    (hw : weeksRemainingOf league currentWeek ≠ 0)
    (hsched : ¬(0 < (getRemainingSchedule api currentWeek
        (regularSeasonWeeksOf league)).length ∧
      (getRemainingSchedule api currentWeek
        (regularSeasonWeeksOf league)).any (fun m => 0 < m.length))) :
    1 ≤ (calculatePlayoffProbability record allRecords league currentWeek
        rosters api rng).probability ∧
      (calculatePlayoffProbability record allRecords league currentWeek
        rosters api rng).probability ≤ 99 := by
  unfold calculatePlayoffProbability
  dsimp only
  rw [if_neg hw, if_neg hsched]
  dsimp only
  apply round_mem_clamp
  · exact le_max_left _ _
  · exact max_le (by norm_num) (min_le_left _ _)

/-- Witness for C7: a two-team league in week 3 of a 14-week regular season
whose provider has no data, forcing the heuristic path. -/
theorem c7_heuristic_probability_clamped_witness :
    ([⟨1, "uA", 2, 0, 0, 200, 180⟩, ⟨2, "uB", 0, 2, 0, 180, 200⟩] :
        List TeamRecord) ≠ [] ∧
      weeksRemainingOf ⟨some ⟨some 1, some 15⟩⟩ 3 ≠ 0 ∧
      1 ≤ (calculatePlayoffProbability ⟨1, "uA", 2, 0, 0, 200, 180⟩
          [⟨1, "uA", 2, 0, 0, 200, 180⟩, ⟨2, "uB", 0, 2, 0, 180, 200⟩]
          ⟨some ⟨some 1, some 15⟩⟩ 3 [] (fun _ => none) (fun _ => 0)).probability ∧
      (calculatePlayoffProbability ⟨1, "uA", 2, 0, 0, 200, 180⟩
          [⟨1, "uA", 2, 0, 0, 200, 180⟩, ⟨2, "uB", 0, 2, 0, 180, 200⟩]
          ⟨some ⟨some 1, some 15⟩⟩ 3 [] (fun _ => none) (fun _ => 0)).probability ≤ 99 := by
  refine ⟨by decide, by decide, ?_⟩
  exact c7_heuristic_probability_clamped ⟨1, "uA", 2, 0, 0, 200, 180⟩
    [⟨1, "uA", 2, 0, 0, 200, 180⟩, ⟨2, "uB", 0, 2, 0, 180, 200⟩]
    ⟨some ⟨some 1, some 15⟩⟩ 3 [] (fun _ => none) (fun _ => 0)
    (by decide) (by decide) (by decide)

/-! ### Claim C1: the qualification threshold is the literal 6 -/

/-- C1 counterexample: a two-team league with `playoffSlotCount = 1`.  With a
single trial and no remaining schedule the target team finishes in position 2
of the trial's final ordering, so under the claim (position ≤ playoffSlotCount
= 1) the trial must not qualify and the returned probability would be 0; the
source still counts it because `2 ≤ 6`, returning 100. -/
theorem c1_counterexample :
    simulateRemainingSeason ⟨2, "u", 0, 2, 0, 10, 0⟩
        [⟨1, "a", 2, 0, 0, 100, 0⟩, ⟨2, "u", 0, 2, 0, 10, 0⟩] [] [] 1 1
        (fun _ => 0) = 100 ∧
      (((sortRecords [⟨1, "a", 2, 0, 0, 100, 0⟩, ⟨2, "u", 0, 2, 0, 10, 0⟩]).findIdx?
          (fun r => r.rosterId == 2)).map (· + 1)).getD 0 = 2 ∧
      ¬(2 ≤ 1) := by
  refine ⟨?_, ?_, by decide⟩ <;>
  norm_num [simulateRemainingSeason, simLoop, runTrial, simulateWeeks,
    simulateWeek, simulatePair, groupByMatchupId, List.eraseDups,
    List.eraseDups.loop, calculateAdjustedPPG, updateRecord, addPF, addPA,
    incWins, incLosses, incTies, sortRecords, List.insertionSort,
    List.orderedInsert, simOrder, standingsOrder]

/-- C1 amended: with one trial, `simulateRemainingSeason` returns 100 exactly
when the target team's 1-based position in the trial's final ordering is
`≤ 6` — the hardcoded literal of the source, not the league's
`playoffSlotCount` — and 0 otherwise. -/
theorem c1_amended_threshold_is_six (userRecord : TeamRecord)
    (allRecords : List TeamRecord) (rosters : List Roster)
    (futureMatchups : List (List Matchup)) (currentWeek : Nat) (rng : Nat → ℚ) :
    simulateRemainingSeason userRecord allRecords rosters futureMatchups
        currentWeek 1 rng =
      if (((sortRecords (simulateWeeks allRecords futureMatchups currentWeek
              rng 0).1).findIdx?
            (fun r => r.rosterId == userRecord.rosterId)).map (· + 1)).getD 0 ≤ 6
      then 100 else 0 := by
  by_cases h : (((sortRecords (simulateWeeks allRecords futureMatchups
      currentWeek rng 0).1).findIdx?
        (fun r => r.rosterId == userRecord.rosterId)).map (· + 1)).getD 0 ≤ 6 <;>
    simp [simulateRemainingSeason, simLoop, runTrial, sortRecords, h] <;>
    norm_num

/-! ### Claim C2: the zero-weeks early return fires only at exactly zero -/

/-- C2 counterexample: `playoff_week_start = 2` and `currentWeek = 3` give
`weeksRemaining = -1 ≤ 0` with the team in a qualifying position
(`currentRank = 1 ≤ playoffTeams = 1`), yet the returned probability is 35,
not 100: the source's early return tests `weeksRemaining === 0` only, and the
heuristic runs instead. -/
theorem c2_counterexample :
    (calculatePlayoffProbability ⟨1, "uA", 0, 0, 0, 0, 0⟩
        [⟨1, "uA", 0, 0, 0, 0, 0⟩] ⟨some ⟨some 1, some 2⟩⟩ 3 []
        (fun _ => none) (fun _ => 0)).weeksRemaining = -1 ∧
      (calculatePlayoffProbability ⟨1, "uA", 0, 0, 0, 0, 0⟩
        [⟨1, "uA", 0, 0, 0, 0, 0⟩] ⟨some ⟨some 1, some 2⟩⟩ 3 []
        (fun _ => none) (fun _ => 0)).currentRank = 1 ∧
      (calculatePlayoffProbability ⟨1, "uA", 0, 0, 0, 0, 0⟩
        [⟨1, "uA", 0, 0, 0, 0, 0⟩] ⟨some ⟨some 1, some 2⟩⟩ 3 []
        (fun _ => none) (fun _ => 0)).playoffTeams = 1 ∧
      (calculatePlayoffProbability ⟨1, "uA", 0, 0, 0, 0, 0⟩
        [⟨1, "uA", 0, 0, 0, 0, 0⟩] ⟨some ⟨some 1, some 2⟩⟩ 3 []
        (fun _ => none) (fun _ => 0)).probability = 35 := by
  refine ⟨?_, ?_, ?_, ?_⟩ <;>
  norm_num [calculatePlayoffProbability, getRemainingSchedule, orFalsyNat,
    regularSeasonWeeksOf, weeksRemainingOf, calculateAdjustedPPG,
    List.insertionSort, List.orderedInsert, simOrder, round_eq,
    Int.floor_eq_iff]

/-- Current rank computed by `calculatePlayoffProbability` (lines 259-264):
1-based position in the records sorted by wins then pointsFor. -/
def currentRankOf (record : TeamRecord) (allRecords : List TeamRecord) : Nat :=
  (((allRecords.insertionSort simOrder).findIdx?
    (fun r => r.rosterId == record.rosterId)).map (· + 1)).getD 0

/-- Playoff team count computed by `calculatePlayoffProbability` (line 254):
`league.settings?.playoff_teams || floor(totalTeams / 2)`. -/
def playoffTeamsOf (league : League) (totalTeams : Nat) : Nat :=
  orFalsyNat (league.settings.bind (·.playoff_teams)) (totalTeams / 2)

/-- C2 amended: exactly when `weeksRemaining = 0`, the function returns
probability 100 if `currentRank ≤ playoffTeams` and 0 otherwise with status
set accordingly, and the result does not depend on the schedule provider or
on the random stream (no fetch and no simulation influence the result).  For
`weeksRemaining < 0` the early return does not fire (see the
counterexample). -/
theorem c2_amended_zero_weeks_exact (record : TeamRecord)
    (allRecords : List TeamRecord) (league : League) (currentWeek : Nat)
    (rosters : List Roster) (api : Nat → Option (List Matchup)) (rng : Nat → ℚ)
    (hw : weeksRemainingOf league currentWeek = 0) :
    calculatePlayoffProbability record allRecords league currentWeek rosters
        api rng =
      { probability :=
          if currentRankOf record allRecords ≤
            playoffTeamsOf league allRecords.length then 100 else 0
        currentRank := currentRankOf record allRecords
        playoffTeams := playoffTeamsOf league allRecords.length
        weeksRemaining := 0
        status :=
          if currentRankOf record allRecords ≤
            playoffTeamsOf league allRecords.length then "IN" else "OUT" } ∧
      ∀ (api' : Nat → Option (List Matchup)) (rng' : Nat → ℚ),
        calculatePlayoffProbability record allRecords league currentWeek
          rosters api' rng' =
        calculatePlayoffProbability record allRecords league currentWeek
          rosters api rng := by
  constructor
  · unfold calculatePlayoffProbability currentRankOf playoffTeamsOf
    dsimp only
    rw [if_pos hw, hw]
  · intro api' rng'
    unfold calculatePlayoffProbability
    dsimp only
    rw [if_pos hw, if_pos hw]

/-- Witness for C2 amended: week 15 of a 14-week regular season, a one-team
league in a qualifying position. -/
theorem c2_amended_zero_weeks_exact_witness :
    weeksRemainingOf ⟨some ⟨some 1, some 15⟩⟩ 15 = 0 ∧
      calculatePlayoffProbability ⟨1, "uA", 8, 6, 0, 1400, 1300⟩
          [⟨1, "uA", 8, 6, 0, 1400, 1300⟩] ⟨some ⟨some 1, some 15⟩⟩ 15 []
          (fun _ => none) (fun _ => 0) =
        { probability :=
            if currentRankOf ⟨1, "uA", 8, 6, 0, 1400, 1300⟩
                [⟨1, "uA", 8, 6, 0, 1400, 1300⟩] ≤
              playoffTeamsOf ⟨some ⟨some 1, some 15⟩⟩ 1 then 100 else 0
          currentRank := currentRankOf ⟨1, "uA", 8, 6, 0, 1400, 1300⟩
            [⟨1, "uA", 8, 6, 0, 1400, 1300⟩]
          playoffTeams := playoffTeamsOf ⟨some ⟨some 1, some 15⟩⟩ 1
          weeksRemaining := 0
          status :=
            if currentRankOf ⟨1, "uA", 8, 6, 0, 1400, 1300⟩
                [⟨1, "uA", 8, 6, 0, 1400, 1300⟩] ≤
              playoffTeamsOf ⟨some ⟨some 1, some 15⟩⟩ 1 then "IN" else "OUT" } :=
  ⟨by decide,
    (c2_amended_zero_weeks_exact ⟨1, "uA", 8, 6, 0, 1400, 1300⟩
      [⟨1, "uA", 8, 6, 0, 1400, 1300⟩] ⟨some ⟨some 1, some 15⟩⟩ 15 []
      (fun _ => none) (fun _ => 0) (by decide)).1⟩

/-! ### Claim C3: the trial sort ignores ties -/

/-- C3 counterexample: seven teams, the target team (roster 7) tied in wins
with roster 6 but ahead on ties and behind on pointsFor.  Under the §4.2
standings rule (wins, ties, pointsFor) the target's 1-based position is 6,
within the default 6 playoff slots, so under the claim the single trial
qualifies and the probability would be 100; the source's trial sort compares
only wins then pointsFor, places the target 7th, and returns 0. -/
theorem c3_counterexample :
    simulateRemainingSeason ⟨7, "u", 1, 0, 2, 10, 0⟩
        [⟨1, "t", 3, 0, 0, 300, 0⟩, ⟨2, "t", 3, 0, 0, 300, 0⟩,
         ⟨3, "t", 3, 0, 0, 300, 0⟩, ⟨4, "t", 3, 0, 0, 300, 0⟩,
         ⟨5, "t", 3, 0, 0, 300, 0⟩, ⟨6, "v", 1, 0, 0, 50, 0⟩,
         ⟨7, "u", 1, 0, 2, 10, 0⟩] [] [] 1 1 (fun _ => 0) = 0 ∧
      ((([⟨1, "t", 3, 0, 0, 300, 0⟩, ⟨2, "t", 3, 0, 0, 300, 0⟩,
         ⟨3, "t", 3, 0, 0, 300, 0⟩, ⟨4, "t", 3, 0, 0, 300, 0⟩,
         ⟨5, "t", 3, 0, 0, 300, 0⟩, ⟨6, "v", 1, 0, 0, 50, 0⟩,
         ⟨7, "u", 1, 0, 2, 10, 0⟩] : List TeamRecord).insertionSort
            standingsOrder).findIdx? (fun r => r.rosterId == 7)).map (· + 1) =
        some 6 ∧
      ((sortRecords [⟨1, "t", 3, 0, 0, 300, 0⟩, ⟨2, "t", 3, 0, 0, 300, 0⟩,
         ⟨3, "t", 3, 0, 0, 300, 0⟩, ⟨4, "t", 3, 0, 0, 300, 0⟩,
         ⟨5, "t", 3, 0, 0, 300, 0⟩, ⟨6, "v", 1, 0, 0, 50, 0⟩,
         ⟨7, "u", 1, 0, 2, 10, 0⟩]).findIdx?
          (fun r => r.rosterId == 7)).map (· + 1) = some 7 := by
  refine ⟨?_, ?_, ?_⟩ <;>
  norm_num [simulateRemainingSeason, simLoop, runTrial, simulateWeeks,
    simulateWeek, simulatePair, groupByMatchupId, List.eraseDups,
    List.eraseDups.loop, calculateAdjustedPPG, updateRecord, addPF, addPA,
    incWins, incLosses, incTies, sortRecords, List.insertionSort,
    List.orderedInsert, simOrder, standingsOrder]

instance : IsTotal TeamRecord simOrder := by
  constructor
  intro a b
  unfold simOrder
  rcases Nat.lt_trichotomy a.wins b.wins with h | h | h
  · right; left; exact h
  · rcases le_total b.pointsFor a.pointsFor with hp | hp
    · left; right; exact ⟨h, hp⟩
    · right; right; exact ⟨h.symm, hp⟩
  · left; left; exact h

instance : IsTrans TeamRecord simOrder := by
  constructor
  intro a b c hab hbc
  unfold simOrder at *
  rcases hab with h1 | ⟨e1, p1⟩ <;> rcases hbc with h2 | ⟨e2, p2⟩
  · left; omega
  · left; omega
  · left; omega
  · right; exact ⟨e1.trans e2, p2.trans p1⟩

/-- C3 amended: in every Monte Carlo trial the final records are ordered by
descending wins, then descending pointsFor only (the `ties` field is not
consulted, unlike the §4.2 standings rule), and the ordering is a
rearrangement of the trial's records. -/
theorem c3_amended_trial_sort_two_keys (rs : List TeamRecord) :
    (sortRecords rs).Sorted simOrder ∧ List.Perm (sortRecords rs) rs :=
  ⟨List.sorted_insertionSort simOrder rs, List.perm_insertionSort simOrder rs⟩

/-! ### Claim C4: randomness is ambient, not injected -/

/-- C4: the source draws from the global `Math.random` with no injectable
random source; modelling the ambient draws as an explicit stream shows the
result depends on that ambient stream: the same call (identical arguments in
the source's signature) returns 100 under one stream and 0 under another, so
two runs need not be identical. -/
theorem c4_result_depends_on_ambient_randomness :
    simulateRemainingSeason ⟨6, "u", 1, 0, 0, 100, 0⟩
        [⟨1, "t", 3, 0, 0, 300, 0⟩, ⟨2, "t", 3, 0, 0, 300, 0⟩,
         ⟨3, "t", 3, 0, 0, 300, 0⟩, ⟨4, "t", 3, 0, 0, 300, 0⟩,
         ⟨5, "t", 3, 0, 0, 300, 0⟩, ⟨6, "u", 1, 0, 0, 100, 0⟩,
         ⟨7, "v", 1, 0, 0, 90, 0⟩] []
        [[⟨1, 6, none⟩, ⟨1, 7, none⟩]] 1 1 (fun _ => 0) = 100 ∧
      simulateRemainingSeason ⟨6, "u", 1, 0, 0, 100, 0⟩
        [⟨1, "t", 3, 0, 0, 300, 0⟩, ⟨2, "t", 3, 0, 0, 300, 0⟩,
         ⟨3, "t", 3, 0, 0, 300, 0⟩, ⟨4, "t", 3, 0, 0, 300, 0⟩,
         ⟨5, "t", 3, 0, 0, 300, 0⟩, ⟨6, "u", 1, 0, 0, 100, 0⟩,
         ⟨7, "v", 1, 0, 0, 90, 0⟩] []
        [[⟨1, 6, none⟩, ⟨1, 7, none⟩]] 1 1
        (fun k => if k == 0 then 0 else 1) = 0 := by
  refine ⟨?_, ?_⟩ <;>
  norm_num [simulateRemainingSeason, simLoop, runTrial, simulateWeeks,
    simulateWeek, simulatePair, groupByMatchupId, List.eraseDups,
    List.eraseDups.loop, calculateAdjustedPPG, updateRecord, addPF, addPA,
    incWins, incLosses, incTies, sortRecords, List.insertionSort,
    List.orderedInsert, simOrder, standingsOrder]

/-! ### Claim C9: simulation never mutates the canonical records

The frame claim is about object mutation, so this second embedding of
`simulateRemainingSeason` makes the JavaScript heap explicit: record objects
live in a store (a list of records) and the arrays hold references (store
indices).  `allRecords.map(r => ({ ...r }))` allocates fresh copies at the end
of the store; every in-place field mutation is a store write through a
reference obtained by `find` over the trial's copy references. -/

instance : Inhabited TeamRecord :=
  ⟨⟨0, "", 0, 0, 0, 0, 0⟩⟩

/-- Dereference a record object. -/
def readRef (store : List TeamRecord) (i : Nat) : TeamRecord :=
  store.getD i default

/-- In-place field mutation of the record object behind reference `i`. -/
def writeRef (store : List TeamRecord) (i : Nat) (f : TeamRecord → TeamRecord) :
    List TeamRecord :=
  store.set i (f (readRef store i))

/-- Embedding of `simRecords.find(r => r.rosterId === id)`: the reference to
the first matching record object. -/
def findRef (store : List TeamRecord) (refs : List Nat) (rid : Nat) : Option Nat :=
  refs.find? (fun i => (readRef store i).rosterId == rid)

/-- Store-level simulation of one future matchup pair (lines 188-220),
mutating the two found record objects in place. -/
def simulatePairRef (store : List TeamRecord) (simRefs : List Nat) (week : Nat)
    (rng : Nat → ℚ) (k : Nat) (team1 team2 : Matchup) : List TeamRecord × Nat :=
  match findRef store simRefs team1.roster_id,
        findRef store simRefs team2.roster_id with
  | some i1, some i2 =>
      let record1 := readRef store i1
      let record2 := readRef store i2
      let ppg1 := calculateAdjustedPPG record1 week
      let ppg2 := calculateAdjustedPPG record2 week
      let points1 := ppg1 * (4/5 + rng k * (2/5))
      let points2 := ppg2 * (4/5 + rng (k+1) * (2/5))
      let store :=
        if points1 > points2 then
          writeRef (writeRef store i1 incWins) i2 incLosses
        else if points2 > points1 then
          writeRef (writeRef store i2 incWins) i1 incLosses
        else
          writeRef (writeRef store i1 incTies) i2 incTies
      let store := writeRef store i1 (addPF points1)
      let store := writeRef store i2 (addPF points2)
      (store, k + 2)
  | _, _ => (store, k)

/-- Store-level simulation of one future week. -/
def simulateWeekRef (store : List TeamRecord) (simRefs : List Nat)
    (weekMatchups : List Matchup) (week : Nat) (rng : Nat → ℚ) (k : Nat) :
    List TeamRecord × Nat :=
  (groupByMatchupId weekMatchups).foldl
    (fun (st : List TeamRecord × Nat) grp =>
      match grp with
      | [t1, t2] => simulatePairRef st.1 simRefs week rng st.2 t1 t2
      | _ => st)
    (store, k)

/-- Store-level simulation of all remaining weeks of one trial. -/
def simulateWeeksRef (store : List TeamRecord) (simRefs : List Nat)
    (futureMatchups : List (List Matchup)) (week : Nat) (rng : Nat → ℚ)
    (k : Nat) : List TeamRecord × Nat :=
  match futureMatchups with
  | [] => (store, k)
  | w :: rest =>
      let st := simulateWeekRef store simRefs w week rng k
      simulateWeeksRef st.1 simRefs rest (week + 1) rng st.2

/-- Trial-sort comparator on references, comparing the records behind them. -/
def refSimOrder (store : List TeamRecord) (i j : Nat) : Prop :=
  simOrder (readRef store i) (readRef store j)

instance (store : List TeamRecord) : DecidableRel (refSimOrder store) :=
  fun i j => by unfold refSimOrder; infer_instance

/-- Store-level Monte Carlo trial: allocate fresh copies of the canonical
record objects (`allRecords.map(r => ({ ...r }))`), simulate the remaining
weeks through those references, sort the reference array and test the target
team's 1-based position against the literal 6. -/
def runTrialRef (store : List TeamRecord) (allRecordRefs : List Nat)
    (userRid : Nat) (futureMatchups : List (List Matchup)) (currentWeek : Nat)
    (rng : Nat → ℚ) (k : Nat) : List TeamRecord × Bool × Nat :=
  let simRefs := (List.range allRecordRefs.length).map (· + store.length)
  let store := store ++ allRecordRefs.map (fun i => readRef store i)
  let st := simulateWeeksRef store simRefs futureMatchups currentWeek rng k
  let finalStandings := simRefs.insertionSort (refSimOrder st.1)
  let userFinalRank : Nat :=
    ((finalStandings.findIdx?
      (fun i => (readRef st.1 i).rosterId == userRid)).map (· + 1)).getD 0
  (st.1, decide (userFinalRank ≤ 6), st.2)

/-- Store-level trial loop. -/
def simLoopRef (allRecordRefs : List Nat) (userRid : Nat)
    (futureMatchups : List (List Matchup)) (currentWeek : Nat)
    (rng : Nat → ℚ) : Nat → List TeamRecord → Nat → Nat →
    List TeamRecord × Nat × Nat
  | 0, store, acc, k => (store, acc, k)
  | n + 1, store, acc, k =>
      let t := runTrialRef store allRecordRefs userRid futureMatchups
        currentWeek rng k
      simLoopRef allRecordRefs userRid futureMatchups currentWeek rng n
        t.1 (if t.2.1 then acc + 1 else acc) t.2.2

/-- Store-level embedding of `simulateRemainingSeason`, returning both the
probability and the final heap. -/
def simulateRemainingSeasonRef (store : List TeamRecord)
    (allRecordRefs : List Nat) (userRid : Nat)
    (futureMatchups : List (List Matchup)) (currentWeek : Nat)
    (iterations : Nat) (rng : Nat → ℚ) : ℚ × List TeamRecord :=
  let res := simLoopRef allRecordRefs userRid futureMatchups currentWeek rng
    iterations store 0 0
  (((res.2.1 : ℚ) / (iterations : ℚ)) * 100, res.1)

theorem take_writeRef (store : List TeamRecord) (i : Nat)
    (f : TeamRecord → TeamRecord) (n : Nat) (h : n ≤ i) :
    (writeRef store i f).take n = store.take n := by
  unfold writeRef
  generalize f (readRef store i) = v
  induction store generalizing i n with
  | nil => rfl
  | cons x xs ih =>
      cases n with
      | zero => rfl
      | succ n' =>
          cases i with
          | zero => omega
          | succ i' =>
              simp only [List.set_cons_succ, List.take_succ_cons]
              rw [ih i' n' (by omega)]

theorem length_writeRef (store : List TeamRecord) (i : Nat)
    (f : TeamRecord → TeamRecord) :
    (writeRef store i f).length = store.length := by
  unfold writeRef
  exact List.length_set store i _

theorem simulatePairRef_frame (store : List TeamRecord) (simRefs : List Nat)
    (week : Nat) (rng : Nat → ℚ) (k : Nat) (t1 t2 : Matchup) (n : Nat)
    (hrefs : ∀ i ∈ simRefs, n ≤ i) :
    (simulatePairRef store simRefs week rng k t1 t2).1.take n = store.take n ∧
      (simulatePairRef store simRefs week rng k t1 t2).1.length = store.length := by
  unfold simulatePairRef
  cases h1 : findRef store simRefs t1.roster_id with
  | none => exact ⟨rfl, rfl⟩
  | some i1 =>
      cases h2 : findRef store simRefs t2.roster_id with
      | none => exact ⟨rfl, rfl⟩
      | some i2 =>
          have hi1 : n ≤ i1 := hrefs i1 (List.mem_of_find?_eq_some h1)
          have hi2 : n ≤ i2 := hrefs i2 (List.mem_of_find?_eq_some h2)
          dsimp only
          constructor
          · split_ifs
            · exact (take_writeRef _ _ _ _ hi2).trans
                ((take_writeRef _ _ _ _ hi1).trans
                  ((take_writeRef _ _ _ _ hi2).trans
                    (take_writeRef _ _ _ _ hi1)))
            · exact (take_writeRef _ _ _ _ hi2).trans
                ((take_writeRef _ _ _ _ hi1).trans
                  ((take_writeRef _ _ _ _ hi1).trans
                    (take_writeRef _ _ _ _ hi2)))
            · exact (take_writeRef _ _ _ _ hi2).trans
                ((take_writeRef _ _ _ _ hi1).trans
                  ((take_writeRef _ _ _ _ hi2).trans
                    (take_writeRef _ _ _ _ hi1)))
          · split_ifs <;>
              simp only [length_writeRef]

theorem simulateWeekRef_frame (store : List TeamRecord) (simRefs : List Nat)
    (weekMatchups : List Matchup) (week : Nat) (rng : Nat → ℚ) (k : Nat)
    (n : Nat) (hrefs : ∀ i ∈ simRefs, n ≤ i) :
    (simulateWeekRef store simRefs weekMatchups week rng k).1.take n =
        store.take n ∧
      (simulateWeekRef store simRefs weekMatchups week rng k).1.length =
        store.length := by
  unfold simulateWeekRef
  generalize groupByMatchupId weekMatchups = gs
  induction gs generalizing store k with
  | nil => exact ⟨rfl, rfl⟩
  | cons g rest ih =>
      simp only [List.foldl_cons]
      rcases g with _ | ⟨t1, _ | ⟨t2, _ | ⟨t3, tail⟩⟩⟩
      · exact ih store k
      · exact ih store k
      · have hp := simulatePairRef_frame store simRefs week rng k t1 t2 n hrefs
        have hrec := ih (simulatePairRef store simRefs week rng k t1 t2).1
          (simulatePairRef store simRefs week rng k t1 t2).2
        exact ⟨hrec.1.trans hp.1, hrec.2.trans hp.2⟩
      · exact ih store k

theorem simulateWeeksRef_frame (store : List TeamRecord) (simRefs : List Nat)
    (futureMatchups : List (List Matchup)) (week : Nat) (rng : Nat → ℚ)
    (k : Nat) (n : Nat) (hrefs : ∀ i ∈ simRefs, n ≤ i) :
    (simulateWeeksRef store simRefs futureMatchups week rng k).1.take n =
        store.take n ∧
      (simulateWeeksRef store simRefs futureMatchups week rng k).1.length =
        store.length := by
  induction futureMatchups generalizing store week k with
  | nil => exact ⟨rfl, rfl⟩
  | cons w rest ih =>
      unfold simulateWeeksRef
      have hw := simulateWeekRef_frame store simRefs w week rng k n hrefs
      have hrec := ih (simulateWeekRef store simRefs w week rng k).1 (week + 1)
        (simulateWeekRef store simRefs w week rng k).2
      exact ⟨hrec.1.trans hw.1, hrec.2.trans hw.2⟩

theorem runTrialRef_frame (store : List TeamRecord) (allRecordRefs : List Nat)
    (userRid : Nat) (futureMatchups : List (List Matchup)) (currentWeek : Nat)
    (rng : Nat → ℚ) (k : Nat) (n : Nat) (hn : n ≤ store.length) :
    (runTrialRef store allRecordRefs userRid futureMatchups currentWeek
        rng k).1.take n = store.take n ∧
      n ≤ (runTrialRef store allRecordRefs userRid futureMatchups currentWeek
        rng k).1.length := by
  unfold runTrialRef
  dsimp only
  have hrefs : ∀ i ∈ (List.range allRecordRefs.length).map (· + store.length),
      n ≤ i := by
    intro i hi
    rcases List.mem_map.mp hi with ⟨j, _, rfl⟩
    omega
  have hw := simulateWeeksRef_frame
    (store ++ allRecordRefs.map (fun i => readRef store i))
    ((List.range allRecordRefs.length).map (· + store.length))
    futureMatchups currentWeek rng k n hrefs
  constructor
  · rw [hw.1]
    exact List.take_append_of_le_length hn
  · rw [hw.2]
    simp only [List.length_append]
    omega

theorem simLoopRef_frame (allRecordRefs : List Nat) (userRid : Nat)
    (futureMatchups : List (List Matchup)) (currentWeek : Nat) (rng : Nat → ℚ)
    (iterations : Nat) (store : List TeamRecord) (acc k : Nat) (n : Nat)
    (hn : n ≤ store.length) :
    (simLoopRef allRecordRefs userRid futureMatchups currentWeek rng
        iterations store acc k).1.take n = store.take n := by
  induction iterations generalizing store acc k with
  | zero => rfl
  | succ m ih =>
      unfold simLoopRef
      have ht := runTrialRef_frame store allRecordRefs userRid futureMatchups
        currentWeek rng k n hn
      exact (ih _ _ _ ht.2).trans ht.1

/-- C9: the store-level `simulateRemainingSeason` never mutates any record
object that existed before the call: the entire original heap prefix — in
particular every canonical record passed in through `allRecordRefs` — is
unchanged, field for field, after any number of trials, because each trial
writes only through the references of its own freshly allocated copies. -/
theorem c9_simulation_never_mutates_canonical_records
    (store : List TeamRecord) (allRecordRefs : List Nat) (userRid : Nat)
    (futureMatchups : List (List Matchup)) (currentWeek : Nat)
    (iterations : Nat) (rng : Nat → ℚ) :
    (simulateRemainingSeasonRef store allRecordRefs userRid futureMatchups
        currentWeek iterations rng).2.take store.length = store := by
  unfold simulateRemainingSeasonRef
  dsimp only
  rw [simLoopRef_frame allRecordRefs userRid futureMatchups currentWeek rng
    iterations store 0 0 store.length (le_refl _)]
  exact List.take_length store

end FantasyStandings
